import Mathlib

/-!
Verification of the graph-api bulk ingestion and deduplication pipeline.

The development shallowly embeds the service layer of the repository:

* `NodeService.create`, `EdgeService.create` — single-entity creation with the
  geometry lookup (`select_one_by_geometry`) that both services perform first.
* `NodeService.create_many`, `EdgeService.create_many`,
  `GraphService.create_many` — the bulk pipelines: in-memory dedup join against
  the pre-filtered existing rows, the COPY transfer, and the uniqueness-conflict
  retry loop with its `_conflict_resolver`.
* `GraphService.bulk_graph_upload` — the multi-stage orchestrator.
* `build_nx_graph_keys` — the multigraph parallel-edge key assignment of
  `GraphService.build_nx_graph`.

Modelling conventions:

* Geometries are represented by their canonical WKT text (`Geom := String`).
  The code always compares geometries through the same canonical text
  serialization (`str(shapely_geometry)` on both sides of the in-memory join,
  `ST_GeomFromText(str(g))` against the stored geometry in SQL), so geometric
  equality is modelled as equality of the canonical text.  The `"SRID=4326; "`
  prefix the code prepends for the COPY payload is applied uniformly to both
  sides of every later comparison, so it cancels and is not carried in the
  model.
* Machine floats (`weight`) and integers (`speed`) are only carried verbatim,
  never computed with; they are modelled as `Int`.
* JSON property maps are carried verbatim and modelled as their serialized
  text.
* Fallible paths (`one_or_none`, HTTP 404, pandas `KeyError` / `ValueError` /
  `TypeError` / `IndexError`) return `Except Err`.
* A pandas `DataFrame` is modelled as a list of label/row pairs
  (`Frame α := List (Nat × α)`): the label is the pandas index label, which the
  conflict resolvers use for `loc` assignment and `drop`.
-/

set_option autoImplicit false

namespace GraphApi

/-- Canonical WKT text of a geometry; geometric equality in the code always
goes through this canonical serialization. -/
abbrev Geom := String

/-- A persisted row of the `nodes` table (timestamps omitted; they are never
read by the modelled code paths). -/
structure NodeRow where
  id : Nat
  type : String
  point : Geom
  route : String
  properties : String
deriving Repr, DecidableEq

/-- A persisted row of the `edges` table.  `route` is nullable in the schema
(`String(50), nullable=True, default=None`). -/
structure EdgeRow where
  id : Nat
  u : Nat
  v : Nat
  type : String
  weight : Int
  weight_type : String
  level : String
  speed : Int
  route : Option String
  geometry : Geom
  properties : String
deriving Repr, DecidableEq

/-- A persisted row of the `graph_edges` relationship table. -/
structure GraphEdgeRow where
  id : Nat
  graph : Nat
  edge : Nat
deriving Repr, DecidableEq

/-- `CreateNodeDTO`: type, properties, optional route, point. -/
structure CreateNodeDTO where
  type : String
  properties : String
  route : Option String
  point : Geom
deriving Repr, DecidableEq

/-- `CreateEdgeDTO`, restricted to the `int` alternative of the `u`/`v` union
(the orchestrator and the bulk path always supply integer endpoint ids). -/
structure CreateEdgeDTO where
  u : Nat
  v : Nat
  type : String
  weight : Int
  weight_type : String
  graph : Nat
  level : String
  speed : Int
  route : Option String
  properties : String
  geometry : Geom
deriving Repr, DecidableEq

/-- The relational store: the three tables plus the sequences that assign
fresh ids. -/
structure Store where
  nodes : List NodeRow
  edges : List EdgeRow
  graph_edges : List GraphEdgeRow
  nextNodeId : Nat
  nextEdgeId : Nat
  nextGraphEdgeId : Nat
deriving Repr, DecidableEq

/-- The error outcomes the modelled code paths can surface. -/
inductive Err where
  /-- SQLAlchemy `MultipleResultsFound` out of `one_or_none`. -/
  | multipleResults
  /-- `HTTPException(404, ...)`. -/
  | notFound
  /-- pandas `IndexError` (`.iloc[0]` on an empty selection). -/
  | indexError
  /-- pandas `KeyError` (missing column or index label). -/
  | keyError
  /-- `ValueError` (length-mismatched assignment, failed tuple unpacking). -/
  | valueError
  /-- `TypeError` (`astype(int)` on nulls, `len(None)`). -/
  | typeError
  /-- Modelling artifact: retry-loop fuel exhausted (unreachable when each
  failed attempt removes one row from the pending batch). -/
  | loopFuel
deriving Repr, DecidableEq

/-- SQLAlchemy `Result.one_or_none`: none for an empty result set, the row for
a singleton, `MultipleResultsFound` otherwise. -/
def oneOrNone {α : Type} : List α → Except Err (Option α)
  | [] => .ok none
  | [x] => .ok (some x)
  | _ => .error .multipleResults

/-- The rows of the `nodes` table whose geometry is exactly equal to `g`. -/
def nodeGeomMatches (s : Store) (g : Geom) : List NodeRow :=
  s.nodes.filter (fun r => r.point == g)

/-- The rows of the `edges` table whose geometry is exactly equal to `g`. -/
def edgeGeomMatches (s : Store) (g : Geom) : List EdgeRow :=
  s.edges.filter (fun r => r.geometry == g)

/-- `NodeService.select_one_by_geometry`: the only filter is
`ST_Equals(ST_GeomFromText(str(geometry)), nodes.c.point)` — no type or route
scoping. -/
def NodeService.select_one_by_geometry (s : Store) (g : Geom) : Except Err (Option Nat) :=
  (oneOrNone (nodeGeomMatches s g)).map (Option.map (fun r => r.id))

/-- `NodeService.select_one`: lookup by id, 404 when absent. -/
def NodeService.select_one (s : Store) (i : Nat) : Except Err NodeRow :=
  match oneOrNone (s.nodes.filter (fun r => r.id == i)) with
  | .error e => .error e
  | .ok none => .error .notFound
  | .ok (some r) => .ok r

/-- `NodeService.select_one_by_unique_critique`: filter on type, exact
geometry and route; 404 when no row matches. -/
def NodeService.select_one_by_unique_critique (s : Store) (t : String) (p : Geom)
    (rt : String) : Except Err Nat :=
  match oneOrNone (s.nodes.filter (fun r => r.type == t && r.point == p && r.route == rt)) with
  | .error e => .error e
  | .ok none => .error .notFound
  | .ok (some r) => .ok r.id

/-- `NodeService.create`: look up an existing row by geometry alone; when one
is found return it via `select_one`, otherwise insert.  The insert statement
supplies only `type`, `properties` and `point`, so `route` receives the
`nodes` table column default `''` regardless of `dto.route`. -/
def NodeService.create (s : Store) (dto : CreateNodeDTO) : Except Err (NodeRow × Store) :=
  match NodeService.select_one_by_geometry s dto.point with
  | .error e => .error e
  | .ok (some i) =>
    match NodeService.select_one s i with
    | .error e => .error e
    | .ok r => .ok (r, s)
  | .ok none =>
    let row : NodeRow :=
      { id := s.nextNodeId, type := dto.type, point := dto.point, route := "",
        properties := dto.properties }
    .ok (row, { s with nodes := s.nodes ++ [row], nextNodeId := s.nextNodeId + 1 })

/-- `EdgeService.select_one_by_geometry`: the only filter is
`ST_Equals(ST_GeomFromText(str(geometry)), edges.c.geometry)`. -/
def EdgeService.select_one_by_geometry (s : Store) (g : Geom) : Except Err (Option Nat) :=
  (oneOrNone (edgeGeomMatches s g)).map (Option.map (fun r => r.id))

/-- `EdgeService.select_one`: lookup by id, 404 when absent. -/
def EdgeService.select_one (s : Store) (i : Nat) : Except Err EdgeRow :=
  match oneOrNone (s.edges.filter (fun r => r.id == i)) with
  | .error e => .error e
  | .ok none => .error .notFound
  | .ok (some r) => .ok r

/-- `EdgeService.select_one_by_unique_critique`: filter on u, v, type, exact
geometry (`ST_OrderingEquals`, modelled like `ST_Equals` as canonical-text
equality) and route.  The SQL `route = :r` comparison never matches a NULL
route. -/
def EdgeService.select_one_by_unique_critique (s : Store) (u v : Nat) (t : String)
    (g : Geom) (rt : String) : Except Err Nat :=
  match oneOrNone (s.edges.filter (fun r =>
      r.u == u && r.v == v && r.type == t && r.geometry == g && r.route == some rt)) with
  | .error e => .error e
  | .ok none => .error .notFound
  | .ok (some r) => .ok r.id

/-- `EdgeService.create` (integer-endpoint case): look up an existing row by
geometry alone; when one is found return it via `select_one`, otherwise insert
all DTO fields (including `route`, kept as-is, possibly null). -/
def EdgeService.create (s : Store) (dto : CreateEdgeDTO) : Except Err (EdgeRow × Store) :=
  match EdgeService.select_one_by_geometry s dto.geometry with
  | .error e => .error e
  | .ok (some i) =>
    match EdgeService.select_one s i with
    | .error e => .error e
    | .ok r => .ok (r, s)
  | .ok none =>
    let row : EdgeRow :=
      { id := s.nextEdgeId, u := dto.u, v := dto.v, type := dto.type,
        weight := dto.weight, weight_type := dto.weight_type, level := dto.level,
        speed := dto.speed, route := dto.route, geometry := dto.geometry,
        properties := dto.properties }
    .ok (row, { s with edges := s.edges ++ [row], nextEdgeId := s.nextEdgeId + 1 })

/-- Well-formedness of the `nodes` table: ids are distinct and below the
sequence value — guaranteed by the id sequence of the schema. -/
def Store.NodesWF (s : Store) : Prop :=
  (s.nodes.map (fun r => r.id)).Nodup ∧ ∀ r ∈ s.nodes, r.id < s.nextNodeId

/-- Well-formedness of the `edges` table: ids are distinct and below the
sequence value. -/
def Store.EdgesWF (s : Store) : Prop :=
  (s.edges.map (fun r => r.id)).Nodup ∧ ∀ r ∈ s.edges, r.id < s.nextEdgeId

instance (s : Store) : Decidable s.NodesWF := by
  unfold Store.NodesWF; infer_instance

instance (s : Store) : Decidable s.EdgesWF := by
  unfold Store.EdgesWF; infer_instance

/-- Empty store used by concrete witnesses. -/
def emptyStore : Store :=
  { nodes := [], edges := [], graph_edges := [],
    nextNodeId := 1, nextEdgeId := 1, nextGraphEdgeId := 1 }

/-- Concrete node DTO used by concrete witnesses. -/
def wNodeDto : CreateNodeDTO :=
  { type := "DRIVE", properties := "{}", route := some "r1", point := "POINT (1 2)" }

/-- Concrete edge DTO used by concrete witnesses. -/
def wEdgeDto : CreateEdgeDTO :=
  { u := 1, v := 2, type := "DRIVE", weight := 10, weight_type := "DISTANCE",
    graph := 1, level := "NONE", speed := 60, route := some "r2",
    properties := "{}", geometry := "LINESTRING (0 0, 1 1)" }

/-- A pandas `DataFrame`, modelled as index label / row pairs. -/
abbrev Frame (α : Type) := List (Nat × α)

/-- The node dedup key `(type, geometry-text, route)`. -/
abbrev NodeKey := String × Geom × String

/-- Key of a persisted node row. -/
def NodeRow.key (r : NodeRow) : NodeKey := (r.type, r.point, r.route)

/-- One row of the `df_nodes` record set handed to `NodeService.create_many`
(after the `type`/`point` stringification at the top of the method). -/
structure NodeRec where
  type : String
  properties : String
  route : String
  point : Geom
deriving Repr, DecidableEq

/-- Key of an input node record. -/
def NodeRec.key (r : NodeRec) : NodeKey := (r.type, r.point, r.route)

/-- The node row the COPY transfer persists for one record, with its
loader-assigned id. -/
def NodeRec.toRow (r : NodeRec) (i : Nat) : NodeRow :=
  { id := i, type := r.type, point := r.point, route := r.route,
    properties := r.properties }

/-- The pandas left merge of `create_many` on `["type", "point", "route"]`:
each input row is paired with every existing row whose key equals its own
(none when there is no match), and `new_id` carries the matched id. -/
def nodeLeftJoin (recs : List NodeRec) (existing : List NodeRow) :
    List (NodeRec × Option Nat) :=
  recs.flatMap (fun r =>
    match existing.filter (fun e => e.key == r.key) with
    | [] => [(r, none)]
    | ms => ms.map (fun e => (r, some e.id)))

/-- COPY transfer core for `nodes`: insert row by row; the first row whose
unique key `(type, point, route)` collides with the accumulated table aborts
the whole transfer, reporting the conflicting key (the loader parses it back
out of the `UniqueViolationError` detail). -/
def copyNodesGo (tbl : List NodeRow) (nid : Nat) :
    Frame NodeRec → Except NodeKey (List Nat × List NodeRow × Nat)
  | [] => .ok ([], tbl, nid)
  | (_, r) :: rest =>
    if (tbl.filter (fun e => e.key == r.key)).isEmpty then
      match copyNodesGo (tbl ++ [r.toRow nid]) (nid + 1) rest with
      | .ok (ids, tbl2, nid2) => .ok (nid :: ids, tbl2, nid2)
      | .error k => .error k
    else .error r.key

/-- `DatabaseModule.execute_copy` on `nodes`: single transaction — on a
uniqueness violation everything is rolled back; on success the new ids are
returned ordered ascending, which coincides with submission order. -/
def copyNodes (s : Store) (df : Frame NodeRec) : Except NodeKey (List Nat × Store) :=
  match copyNodesGo s.nodes s.nextNodeId df with
  | .ok (ids, tbl, nid) => .ok (ids, { s with nodes := tbl, nextNodeId := nid })
  | .error k => .error k

/-- Label of the first frame row satisfying `p` (`.iloc[0].name`). -/
def frameFirstLabel {α : Type} (f : Frame α) (p : α → Bool) : Option Nat :=
  (f.find? (fun la => p la.2)).map (fun la => la.1)

/-- `df.drop(index = l)`. -/
def frameDropLabel {α : Type} (f : Frame α) (l : Nat) : Frame α :=
  f.filter (fun la => la.1 != l)

/-- Whether label `l` is present in the frame. -/
def frameHasLabel {α : Type} (f : Frame α) (l : Nat) : Bool :=
  f.any (fun la => la.1 == l)

/-- The rows of `nodes` returned by the pre-filter query
(`select_many` with a geometry filter: `ST_Intersects(scope, point)`). -/
def nodeScopedExisting (s : Store) (f : Geom → Bool) : List NodeRow :=
  s.nodes.filter (fun r => f r.point)

/-- The existing-row set the node pre-filter query returns for a given scope:
all nodes when unscoped (`SelectNodesDTO(geometry=None)`), the intersecting
nodes otherwise. -/
def nodeExistingFor (s : Store) (scope : Option (Geom → Bool)) : List NodeRow :=
  match scope with
  | none => s.nodes
  | some f => nodeScopedExisting s f

/-- `df_nodes.loc[l, "new_id"] = i`. -/
def nodeFrameSet (f : Frame (NodeRec × Option Nat)) (l : Nat) (i : Nat) :
    Frame (NodeRec × Option Nat) :=
  f.map (fun la => if la.1 == l then (la.1, (la.2.1, some i)) else la)

/-- `NodeService._conflict_resolver`: locate the first input row carrying the
conflicting key, resolve it to its pre-existing id by the unique-critique
lookup, record that id, and drop the row from the pending batch.  The lookup
call is NOT wrapped in try/except: its failure propagates. -/
def NodeService.conflict_resolver (s : Store) (k : NodeKey)
    (df_nodes : Frame (NodeRec × Option Nat)) (df : Frame NodeRec) :
    Except Err (Frame (NodeRec × Option Nat) × Frame NodeRec) :=
  match frameFirstLabel df_nodes (fun ro => ro.1.key == k) with
  | none => .error .indexError
  | some found =>
    match NodeService.select_one_by_unique_critique s k.1 k.2.1 k.2.2 with
    | .error e => .error e
    | .ok i =>
      if frameHasLabel df found then
        .ok (nodeFrameSet df_nodes found i, frameDropLabel df found)
      else .error .keyError

/-- `mask.sum()`: number of frame rows with unassigned `new_id`. -/
def countNone {α : Type} (f : Frame (α × Option Nat)) : Nat :=
  (f.filter (fun la => la.2.2.isNone)).length

/-- `df.loc[mask, "new_id"] = res[:mask.sum()]`: loader-assigned ids are
written, in submission order, only into the rows whose `new_id` is still
unassigned. -/
def fillIds {α : Type} : Frame (α × Option Nat) → List Nat → Frame (α × Option Nat)
  | [], _ => []
  | (l, (r, none)) :: rest, [] => (l, (r, none)) :: fillIds rest []
  | (l, (r, none)) :: rest, i :: is => (l, (r, some i)) :: fillIds rest is
  | (l, (r, some j)) :: rest, ids => (l, (r, some j)) :: fillIds rest ids

/-- `df["new_id"].astype(int)`: fails when any `new_id` is still null. -/
def toAssigned {α : Type} : Frame (α × Option Nat) → Option (Frame (α × Nat))
  | [] => some []
  | (l, (r, some i)) :: rest => (toAssigned rest).map (fun t => (l, (r, i)) :: t)
  | (_, (_, none)) :: _ => none

/-- Outcome of one bulk stage: its result, and whether the serialized CSV
batch file is still on disk when the stage terminates. -/
structure StageOut (α : Type) where
  result : Except Err α
  csvOnDisk : Bool
deriving Repr

/-- The `while not done` retry loop of `NodeService.create_many`.  Each pass
rewrites the CSV file and attempts the transfer; on success the ids are merged
back (`ValueError` on a length-mismatched assignment, `TypeError` from
`astype(int)` on a leftover null) and the file is removed after the loop; an
error escaping the loop leaves the file on disk. -/
def nodeBulkLoop (s : Store) : Nat → Frame (NodeRec × Option Nat) → Frame NodeRec →
    StageOut (Frame (NodeRec × Nat) × Nat × Store)
  | 0, _, _ => ⟨.error .loopFuel, true⟩
  | fuel + 1, df_nodes, df =>
    match copyNodes s df with
    | .ok (res, s2) =>
      if res.length < countNone df_nodes then ⟨.error .valueError, true⟩
      else
        match toAssigned (fillIds df_nodes res) with
        | some final => ⟨.ok (final, res.length, s2), false⟩
        | none => ⟨.error .typeError, true⟩
    | .error k =>
      match NodeService.conflict_resolver s k df_nodes df with
      | .error e => ⟨.error e, true⟩
      | .ok (df_nodes2, df2) => nodeBulkLoop s fuel df_nodes2 df2

/-- `NodeService.create_many`: pre-filter the existing rows intersecting the
scope geometry (`none` scope = unscoped, all rows), left-join the batch
against them on the dedup key carrying over existing ids, submit the rows
without an id to the bulk loader, and merge loader-assigned ids back.
Returns the record set with assigned ids and the inserted count. -/
def NodeService.create_many (scope : Option (Geom → Bool)) (s : Store)
    (recs : List NodeRec) : StageOut (Frame (NodeRec × Nat) × Nat × Store) :=
  let existing := nodeExistingFor s scope
  let merged : List (NodeRec × Option Nat) :=
    if existing.isEmpty then recs.map (fun r => (r, none))
    else nodeLeftJoin recs existing
  let df_nodes : Frame (NodeRec × Option Nat) := merged.enum
  let df : Frame NodeRec :=
    (df_nodes.filter (fun la => la.2.2.isNone)).map (fun la => (la.1, la.2.1))
  nodeBulkLoop s (df.length + 1) df_nodes df

/-- The edge dedup key `(u, v, type, geometry-text, route)`. -/
abbrev EdgeKey := Nat × Nat × String × Geom × String

/-- One row of the `df_edges` record set as handed over by the orchestrator
(`route` may still be null). -/
structure EdgeRecIn where
  u : Nat
  v : Nat
  type : String
  weight : Int
  weight_type : String
  level : String
  speed : Int
  route : Option String
  properties : String
  geometry : Geom
deriving Repr, DecidableEq

/-- An edge record after the field normalization at the top of
`EdgeService.create_many` (`route` null replaced by `""` via `fillna`). -/
structure EdgeRec where
  u : Nat
  v : Nat
  type : String
  weight : Int
  weight_type : String
  level : String
  speed : Int
  route : String
  properties : String
  geometry : Geom
deriving Repr, DecidableEq

/-- Field normalization of `EdgeService.create_many`: `fillna("")` on route
(enum stringification is the identity in this model). -/
def EdgeRecIn.prep (r : EdgeRecIn) : EdgeRec :=
  { u := r.u, v := r.v, type := r.type, weight := r.weight,
    weight_type := r.weight_type, level := r.level, speed := r.speed,
    route := r.route.getD "", properties := r.properties, geometry := r.geometry }

/-- Key of an input edge record. -/
def EdgeRec.key (r : EdgeRec) : EdgeKey := (r.u, r.v, r.type, r.geometry, r.route)

/-- Whether a persisted edge row matches an input record on the merge key
`["u", "v", "type", "geometry", "route"]`.  A null stored route never matches
(pandas join semantics on missing values). -/
def EdgeRow.matchesRec (e : EdgeRow) (r : EdgeRec) : Bool :=
  e.u == r.u && e.v == r.v && e.type == r.type && e.geometry == r.geometry &&
    e.route == some r.route

/-- The edge row the COPY transfer persists for one record, with its
loader-assigned id (`route` is written as the non-null normalized string). -/
def EdgeRec.toRow (r : EdgeRec) (i : Nat) : EdgeRow :=
  { id := i, u := r.u, v := r.v, type := r.type, weight := r.weight,
    weight_type := r.weight_type, level := r.level, speed := r.speed,
    route := some r.route, geometry := r.geometry, properties := r.properties }

/-- Uniqueness conflict between two persisted edge rows under the
`(u, v, type, geometry, route)` constraint; SQL NULLs are distinct, so a null
route never conflicts. -/
def edgeRowsConflict (a b : EdgeRow) : Bool :=
  a.u == b.u && a.v == b.v && a.type == b.type && a.geometry == b.geometry &&
    (match a.route, b.route with
     | some x, some y => x == y
     | _, _ => false)

/-- The pandas left merge of `EdgeService.create_many` on
`["u", "v", "type", "geometry", "route"]`. -/
def edgeLeftJoin (recs : List EdgeRec) (existing : List EdgeRow) :
    List (EdgeRec × Option Nat) :=
  recs.flatMap (fun r =>
    match existing.filter (fun e => e.matchesRec r) with
    | [] => [(r, none)]
    | ms => ms.map (fun e => (r, some e.id)))

/-- COPY transfer core for `edges`. -/
def copyEdgesGo (tbl : List EdgeRow) (eid : Nat) :
    Frame EdgeRec → Except EdgeKey (List Nat × List EdgeRow × Nat)
  | [] => .ok ([], tbl, eid)
  | (_, r) :: rest =>
    if (tbl.filter (fun e => edgeRowsConflict e (r.toRow eid))).isEmpty then
      match copyEdgesGo (tbl ++ [r.toRow eid]) (eid + 1) rest with
      | .ok (ids, tbl2, eid2) => .ok (eid :: ids, tbl2, eid2)
      | .error k => .error k
    else .error r.key

/-- `DatabaseModule.execute_copy` on `edges`. -/
def copyEdges (s : Store) (df : Frame EdgeRec) : Except EdgeKey (List Nat × Store) :=
  match copyEdgesGo s.edges s.nextEdgeId df with
  | .ok (ids, tbl, eid) => .ok (ids, { s with edges := tbl, nextEdgeId := eid })
  | .error k => .error k

/-- `df_edges.loc[l, "new_id"] = i`. -/
def edgeFrameSet (f : Frame (EdgeRec × Option Nat)) (l : Nat) (i : Nat) :
    Frame (EdgeRec × Option Nat) :=
  f.map (fun la => if la.1 == l then (la.1, (la.2.1, some i)) else la)

/-- `EdgeService._conflict_resolver`: like the node version, but the
unique-critique lookup is wrapped in `try/except HTTPException` — a 404 from
the lookup drops the offending row from `df_edges` instead of propagating
(any other exception still propagates). -/
def EdgeService.conflict_resolver (s : Store) (k : EdgeKey)
    (df_edges : Frame (EdgeRec × Option Nat)) (df : Frame EdgeRec) :
    Except Err (Frame (EdgeRec × Option Nat) × Frame EdgeRec) :=
  match frameFirstLabel df_edges (fun ro => ro.1.key == k) with
  | none => .error .indexError
  | some found =>
    match
      (match EdgeService.select_one_by_unique_critique s k.1 k.2.1 k.2.2.1
          k.2.2.2.1 k.2.2.2.2 with
       | .ok i => .ok (edgeFrameSet df_edges found i)
       | .error .notFound => .ok (frameDropLabel df_edges found)
       | .error e => .error e :
        Except Err (Frame (EdgeRec × Option Nat))) with
    | .error e => .error e
    | .ok df_edges2 =>
      if frameHasLabel df found then
        .ok (df_edges2, frameDropLabel df found)
      else .error .keyError

/-- The retry loop of `EdgeService.create_many`. -/
def edgeBulkLoop (s : Store) : Nat → Frame (EdgeRec × Option Nat) → Frame EdgeRec →
    StageOut (Frame (EdgeRec × Nat) × Nat × Store)
  | 0, _, _ => ⟨.error .loopFuel, true⟩
  | fuel + 1, df_edges, df =>
    match copyEdges s df with
    | .ok (res, s2) =>
      if res.length < countNone df_edges then ⟨.error .valueError, true⟩
      else
        match toAssigned (fillIds df_edges res) with
        | some final => ⟨.ok (final, res.length, s2), false⟩
        | none => ⟨.error .typeError, true⟩
    | .error k =>
      match EdgeService.conflict_resolver s k df_edges df with
      | .error e => ⟨.error e, true⟩
      | .ok (df_edges2, df2) => edgeBulkLoop s fuel df_edges2 df2

/-- The rows returned by `EdgeService.select_many` for a geometry filter: the
query joins `nodes` on `u` or `v` and keeps edges with an endpoint
intersecting the geometry; the join has no DISTINCT, so an edge appears once
per matching endpoint node. -/
def edgeScopedExisting (s : Store) (scope : Option (Geom → Bool)) : List EdgeRow :=
  match scope with
  | none => s.edges
  | some f =>
    s.edges.flatMap (fun e =>
      (s.nodes.filter (fun n => (n.id == e.u || n.id == e.v) && f n.point)).map
        (fun _ => e))

/-- `EdgeService.create_many`: normalize fields, pre-filter existing edges by
endpoint intersection with the scope geometry, left-join on the dedup key,
bulk-load the remainder and merge ids back.  NOTE: unlike the node pipeline,
the Python method returns only the record frame — there is no inserted-count
component (`return df_edges`); the model carries the count and store for
later stages but the Python-level return shape is a single DataFrame (see
`edge_create_many_return_shape`). -/
def EdgeService.create_many (scope : Option (Geom → Bool)) (s : Store)
    (recsIn : List EdgeRecIn) : StageOut (Frame (EdgeRec × Nat) × Nat × Store) :=
  let recs := recsIn.map EdgeRecIn.prep
  let existing := edgeScopedExisting s scope
  let merged : List (EdgeRec × Option Nat) :=
    if existing.isEmpty then recs.map (fun r => (r, none))
    else edgeLeftJoin recs existing
  let df_edges : Frame (EdgeRec × Option Nat) := merged.enum
  let df : Frame EdgeRec :=
    (df_edges.filter (fun la => la.2.2.isNone)).map (fun la => (la.1, la.2.1))
  edgeBulkLoop s (df.length + 1) df_edges df

/-- One row of the relationship record set (`graph` id, `edge` id). -/
structure ShipRec where
  graph : Nat
  edge : Nat
deriving Repr, DecidableEq

/-- `GraphService.select_many_edges_by_graph_and_geometry`: edge ids already
linked to the graph whose two endpoint nodes both intersect the geometry. -/
def GraphService.select_many_edges_by_graph_and_geometry (s : Store) (g : Nat)
    (f : Geom → Bool) : List Nat :=
  (s.graph_edges.filter (fun ge => ge.graph == g &&
    s.edges.any (fun e => e.id == ge.edge &&
      s.nodes.any (fun n => n.id == e.u && f n.point) &&
      s.nodes.any (fun n => n.id == e.v && f n.point)))).map (fun ge => ge.edge)

/-- COPY transfer core for `graph_edges` (unique on `(graph, edge)`). -/
def copyShipsGo (tbl : List GraphEdgeRow) (sid : Nat) :
    Frame ShipRec → Except (Nat × Nat) (List Nat × List GraphEdgeRow × Nat)
  | [] => .ok ([], tbl, sid)
  | (_, r) :: rest =>
    if (tbl.filter (fun ge => ge.graph == r.graph && ge.edge == r.edge)).isEmpty then
      match copyShipsGo (tbl ++ [{ id := sid, graph := r.graph, edge := r.edge }])
          (sid + 1) rest with
      | .ok (ids, tbl2, sid2) => .ok (sid :: ids, tbl2, sid2)
      | .error k => .error k
    else .error (r.graph, r.edge)

/-- `DatabaseModule.execute_copy` on `graph_edges`. -/
def copyShips (s : Store) (df : Frame ShipRec) : Except (Nat × Nat) (List Nat × Store) :=
  match copyShipsGo s.graph_edges s.nextGraphEdgeId df with
  | .ok (ids, tbl, sid) =>
    .ok (ids, { s with graph_edges := tbl, nextGraphEdgeId := sid })
  | .error k => .error k

/-- `GraphService._conflict_resolver`: locate the first pending row with the
conflicting `(graph, edge)` pair and drop it — no lookup, no id carry-over. -/
def GraphService.conflict_resolver (k : Nat × Nat) (df : Frame ShipRec) :
    Except Err (Frame ShipRec) :=
  match frameFirstLabel df (fun r => r.graph == k.1 && r.edge == k.2) with
  | none => .error .indexError
  | some found => .ok (frameDropLabel df found)

/-- `df["new_id"] = res` after the relationship loop: requires equal lengths
(otherwise pandas raises `ValueError`). -/
def shipAssign (df : Frame ShipRec) (ids : List Nat) : Frame (ShipRec × Nat) :=
  df.zip ids |>.map (fun p => (p.1.1, (p.1.2, p.2)))

/-- The retry loop of `GraphService.create_many`. -/
def shipBulkLoop (s : Store) : Nat → Frame ShipRec →
    StageOut (Frame (ShipRec × Nat) × Nat × Store)
  | 0, _ => ⟨.error .loopFuel, true⟩
  | fuel + 1, df =>
    match copyShips s df with
    | .ok (res, s2) =>
      if res.length == df.length then ⟨.ok (shipAssign df res, res.length, s2), false⟩
      else ⟨.error .valueError, true⟩
    | .error k =>
      match GraphService.conflict_resolver k df with
      | .error e => ⟨.error e, true⟩
      | .ok df2 => shipBulkLoop s fuel df2

/-- `GraphService.create_many`: link a batch of edge ids to a graph; with a
scope geometry, edge ids already linked whose endpoints both fall inside it
are removed first; then bulk-load with the conflict-retry loop. -/
def GraphService.create_many (s : Store) (graph : Nat) (edgeIds : List Nat)
    (scope : Option (Geom → Bool)) : StageOut (Frame (ShipRec × Nat) × Nat × Store) :=
  let df0 : List ShipRec := edgeIds.map (fun e => { graph := graph, edge := e })
  let df : Frame ShipRec :=
    match scope with
    | none => df0.enum
    | some f =>
      let ex := GraphService.select_many_edges_by_graph_and_geometry s graph f
      df0.enum.filter (fun la => !(ex.contains la.2.edge))
  shipBulkLoop s (df.length + 1) df

/-- Rows persisted by the node bulk loader for a submitted record list, with
sequentially assigned fresh ids. -/
def rowsWithFreshIds (nid : Nat) : List NodeRec → List NodeRow
  | [] => []
  | r :: rs => r.toRow nid :: rowsWithFreshIds (nid + 1) rs

/-- Rows persisted by the edge bulk loader for a submitted record list, with
sequentially assigned fresh ids. -/
def edgeRowsWithFreshIds (eid : Nat) : List EdgeRec → List EdgeRow
  | [] => []
  | r :: rs => r.toRow eid :: edgeRowsWithFreshIds (eid + 1) rs

/-- Concrete node DTO with a non-empty route, for the C10 witness. -/
def c10dto : CreateNodeDTO :=
  { type := "DRIVE", properties := "{}", route := some "R7", point := "POINT (8 9)" }

/-- Concrete node record with the same non-empty route, for the C10 witness
bulk side. -/
def c10rec : NodeRec :=
  { type := "DRIVE", properties := "{}", route := "R7", point := "POINT (8 9)" }

/-- Store obtained by bulk-loading `[c10rec]` into the empty store. -/
def c10store : Store :=
  { nodes := [c10rec.toRow 1], edges := [], graph_edges := [],
    nextNodeId := 2, nextEdgeId := 1, nextGraphEdgeId := 1 }

/-- The `relationships` dict of `GraphService.build_nx_graph`, as an
association list (most recent binding first). -/
def relLookup (rel : List ((Nat × Nat) × Nat)) (p : Nat × Nat) : Option Nat :=
  (rel.find? (fun q => q.1 == p)).map (fun q => q.2)

/-- Number of edges with ordered pair `p` already consumed by the key loop:
`relationships[p] + 1`, or 0 when the pair is unseen. -/
def relCount (rel : List ((Nat × Nat) × Nat)) (p : Nat × Nat) : Nat :=
  match relLookup rel p with
  | none => 0
  | some k => k + 1

/-- The key-assignment loop of `GraphService.build_nx_graph`: an unseen pair
enters `relationships` at -1 and is incremented before use, so it gets key 0;
each repeat of the same ordered pair increments the counter by one. -/
def assignKeysGo (rel : List ((Nat × Nat) × Nat)) : List (Nat × Nat) → List Nat
  | [] => []
  | p :: ps =>
    let c : Nat := match relLookup rel p with
      | none => 0
      | some k => k + 1
    c :: assignKeysGo ((p, c) :: rel) ps

/-- The `key` column `GraphService.build_nx_graph` computes for the edge list
returned by the store, in returned order. -/
def build_nx_graph_keys (ps : List (Nat × Nat)) : List Nat :=
  assignKeysGo [] ps

/-- The records of a merged row set whose `new_id` is still unassigned — the
record set submitted to the bulk loader. -/
def unmatchedOf {α : Type} (merged : List (α × Option Nat)) : List α :=
  (merged.filter (fun m => m.2.isNone)).map (fun m => m.1)

/-- The final id assignment of `create_many` after a successful transfer:
rows already carrying a pre-existing id keep it; the rows that were submitted
receive the loader-assigned ids, which are consecutive fresh ids in
submission order. -/
def assignFresh {α : Type} (nid : Nat) : Frame (α × Option Nat) → Frame (α × Nat)
  | [] => []
  | (l, (r, some i)) :: rest => (l, (r, i)) :: assignFresh nid rest
  | (l, (r, none)) :: rest => (l, (r, nid)) :: assignFresh (nid + 1) rest

/-- Input node records with no dedup-key match among the existing rows. -/
def nodeUnmatched (existing : List NodeRow) (recs : List NodeRec) : List NodeRec :=
  recs.filter (fun r => (existing.filter (fun e => e.key == r.key)).isEmpty)

/-- Input edge records with no dedup-key match among the existing rows. -/
def edgeUnmatched (existing : List EdgeRow) (recs : List EdgeRec) : List EdgeRec :=
  recs.filter (fun r => (existing.filter (fun e => e.matchesRec r)).isEmpty)

/-- The node DTO corresponding to one bulk record (what a caller of the
single-create path would send for the same record). -/
def CreateNodeDTO.ofRec (r : NodeRec) : CreateNodeDTO :=
  { type := r.type, properties := r.properties, route := some r.route,
    point := r.point }

/-- The edge DTO corresponding to one bulk record (`graph` is irrelevant to
the single-create path and set to 0). -/
def CreateEdgeDTO.ofRecIn (r : EdgeRecIn) : CreateEdgeDTO :=
  { u := r.u, v := r.v, type := r.type, weight := r.weight,
    weight_type := r.weight_type, graph := 0, level := r.level,
    speed := r.speed, route := r.route, properties := r.properties,
    geometry := r.geometry }

/-- Calling `NodeService.create` once per record, threading the store. -/
def nodeSequentialCreate (s : Store) : List NodeRec → Except Err Store
  | [] => .ok s
  | r :: rs =>
    match NodeService.create s (CreateNodeDTO.ofRec r) with
    | .error e => .error e
    | .ok (_, s2) => nodeSequentialCreate s2 rs

/-- Calling `EdgeService.create` once per record, threading the store. -/
def edgeSequentialCreate (s : Store) : List EdgeRecIn → Except Err Store
  | [] => .ok s
  | r :: rs =>
    match EdgeService.create s (CreateEdgeDTO.ofRecIn r) with
    | .error e => .error e
    | .ok (_, s2) => edgeSequentialCreate s2 rs

/-- Concrete node record with a non-empty route, for the C4 counterexample. -/
def c4rec : NodeRec :=
  { type := "DRIVE", properties := "{}", route := "rr", point := "POINT (2 2)" }

/-- Row persisted by sequentially creating `c4rec` in the empty store: the
single-create path drops the route. -/
def c4seqRow : NodeRow :=
  { id := 1, type := "DRIVE", point := "POINT (2 2)", route := "", properties := "{}" }

/-- Store holding only `c4seqRow`. -/
def c4seqStore : Store :=
  { nodes := [c4seqRow], edges := [], graph_edges := [],
    nextNodeId := 2, nextEdgeId := 1, nextGraphEdgeId := 1 }

/-- Store after bulk-loading `[c4rec]` into the empty store: the bulk path
persists the supplied route. -/
def c4bulkStore : Store :=
  { nodes := [c4rec.toRow 1], edges := [], graph_edges := [],
    nextNodeId := 2, nextEdgeId := 1, nextGraphEdgeId := 1 }

/-- Scope predicate used by concrete witnesses: everything intersects. -/
def w2f : Geom → Bool := fun _ => true

/-- Persisted node row used by the C2 witness. -/
def w2row : NodeRow :=
  { id := 1, type := "DRIVE", point := "POINT (1 1)", route := "", properties := "{}" }

/-- Store holding `w2row`, for the C2 node-side witness. -/
def w2s : Store :=
  { nodes := [w2row], edges := [], graph_edges := [],
    nextNodeId := 2, nextEdgeId := 1, nextGraphEdgeId := 1 }

/-- Input node record whose dedup key matches `w2row`. -/
def w2recA : NodeRec :=
  { type := "DRIVE", properties := "{}", route := "", point := "POINT (1 1)" }

/-- Input node record matching no existing row. -/
def w2recB : NodeRec :=
  { type := "DRIVE", properties := "{}", route := "", point := "POINT (2 2)" }

/-- Persisted edge row used by the C2 witness. -/
def w2erow : EdgeRow :=
  { id := 1, u := 1, v := 1, type := "DRIVE", weight := 1,
    weight_type := "DISTANCE", level := "NONE", speed := 0, route := some "",
    geometry := "LINESTRING (1 1, 2 2)", properties := "{}" }

/-- Store holding `w2row` and `w2erow`, for the C2 edge-side witness. -/
def w2t : Store :=
  { nodes := [w2row], edges := [w2erow], graph_edges := [],
    nextNodeId := 2, nextEdgeId := 2, nextGraphEdgeId := 1 }

/-- Input edge record whose dedup key matches `w2erow`. -/
def w2erecA : EdgeRecIn :=
  { u := 1, v := 1, type := "DRIVE", weight := 1, weight_type := "DISTANCE",
    level := "NONE", speed := 0, route := some "", properties := "{}",
    geometry := "LINESTRING (1 1, 2 2)" }

/-- Input edge record matching no existing row. -/
def w2erecB : EdgeRecIn :=
  { u := 1, v := 1, type := "DRIVE", weight := 1, weight_type := "DISTANCE",
    level := "NONE", speed := 0, route := some "", properties := "{}",
    geometry := "LINESTRING (3 3, 4 4)" }

/-- Persisted node row with discriminators (type "TRAIN", route "x") that do
NOT match `c6ndto`, only its geometry does. -/
def c6row : NodeRow :=
  { id := 1, type := "TRAIN", point := "POINT (9 9)", route := "x",
    properties := "{}" }

/-- Persisted edge row with discriminators (u, v, type, route) that do NOT
match `c6edto`, only its geometry does. -/
def c6erow : EdgeRow :=
  { id := 1, u := 1, v := 2, type := "TRAIN", weight := 5,
    weight_type := "TIME", level := "LOCAL", speed := 10, route := some "y",
    geometry := "LINESTRING (9 9, 8 8)", properties := "{}" }

/-- Store holding `c6row` and `c6erow`. -/
def c6store : Store :=
  { nodes := [c6row], edges := [c6erow], graph_edges := [],
    nextNodeId := 2, nextEdgeId := 2, nextGraphEdgeId := 1 }

/-- Node DTO sharing only its geometry with `c6row`. -/
def c6ndto : CreateNodeDTO :=
  { type := "DRIVE", properties := "{}", route := none, point := "POINT (9 9)" }

/-- Edge DTO sharing only its geometry with `c6erow` (different endpoints,
type and route). -/
def c6edto : CreateEdgeDTO :=
  { u := 7, v := 8, type := "DRIVE", weight := 1, weight_type := "DISTANCE",
    graph := 1, level := "NONE", speed := 60, route := none,
    properties := "{}", geometry := "LINESTRING (9 9, 8 8)" }

/-- Python-level value shapes relevant to the pipelines' return contract. -/
inductive PyVal where
  | dataFrame (cols : List String)
  | pyInt (n : Nat)
  | pyStr (s : String)
  | tuple (items : List PyVal)
deriving Repr

/-- Python 2-tuple unpacking `a, b = x`: a 2-tuple unpacks to its items; a
DataFrame iterates its column labels, so it unpacks only when it has exactly
two columns (binding the two labels); anything else raises `ValueError`. -/
def unpack2 : PyVal → Except Err (PyVal × PyVal)
  | .tuple [a, b] => .ok (a, b)
  | .dataFrame [a, b] => .ok (.pyStr a, .pyStr b)
  | _ => .error .valueError

/-- Columns of the record frame `NodeService.create_many` returns in the
no-existing-rows branch: the `CreateNodeDTO` dict columns plus `new_id`. -/
def node_create_many_frame_cols : List String :=
  ["type", "properties", "route", "point", "new_id"]

/-- The Python return shape of `NodeService.create_many`:
`return df_nodes, len(res)` — a pair of the record frame and the inserted
count. -/
def node_create_many_return_shape (insertedCount : Nat) : PyVal :=
  .tuple [.dataFrame node_create_many_frame_cols, .pyInt insertedCount]

/-- Columns of the record frame `EdgeService.create_many` returns: the
`CreateEdgeDTO` dict columns without `graph` (dropped by the orchestrator)
plus `new_id`. -/
def edge_create_many_frame_cols : List String :=
  ["u", "v", "type", "weight", "weight_type", "level", "speed", "route",
   "properties", "geometry", "new_id"]

/-- The Python return shape of `EdgeService.create_many`: `return df_edges` —
the bare record frame, with no inserted-count component. -/
def edge_create_many_return_shape : PyVal :=
  .dataFrame edge_create_many_frame_cols

/-- The route normalization of `bulk_graph_upload`:
`x[:min(200, len(x))].replace('\x22', '')` — truncate to 200 characters and
strip double quotes (`Char.ofNat 34`). -/
def truncRoute (r : String) : String :=
  ((r.toList.take 200).filter (fun c => c != Char.ofNat 34)).asString

/-- Endpoint remap `df_edges["u"].map(new_nodes_id)` /
`df_edges["v"].map(new_nodes_id)`: a `u`/`v` value absent from the node
frame's labels becomes NaN, which the integer COPY of the edge stage rejects;
modelled as an error at the remap step.  The route has already been truncated
and quote-stripped by the orchestrator before this point. -/
def remapEdgeDtos (m : Nat → Option Nat) : List CreateEdgeDTO → Except Err (List EdgeRecIn)
  | [] => .ok []
  | d :: ds =>
    match m d.u, m d.v with
    | some u2, some v2 =>
      (remapEdgeDtos m ds).map (fun rest =>
        { u := u2, v := v2, type := d.type, weight := d.weight,
          weight_type := d.weight_type, level := d.level, speed := d.speed,
          route := some (truncRoute (d.route.getD "")),
          properties := d.properties, geometry := d.geometry } :: rest)
    | _, _ => .error .valueError

/-- `GraphService.bulk_graph_upload`, parameterized by the bounding-geometry
computation (`box(*gdf_edges.total_bounds)`) and the spatial intersects
predicate — external spatial primitives the claims do not interpret.
Faithful to the source, including two slips: with an *empty* edge list,
`DataFrame(data=[])` has no columns, so the route normalization
`df_edges["route"].apply(...)` raises `KeyError` before the node stage ever
runs (the explicit unscoped-node/zero-counts branch further down is dead
code, hence absent here); a null route raises `TypeError` inside the same
`apply` (`len(None)`); and with a *non-empty* edge list the statement
`df_edges, edges_uploaded = await self.edge_service.create_many(...)` unpacks
the single DataFrame the edge pipeline returns, raising `ValueError` after
the edge stage commits, so the relationship stage and the success payload are
unreachable. -/
def GraphService.bulk_graph_upload (bbox : List Geom → Geom)
    (intersects : Geom → Geom → Bool) (s : Store)
    (nodeDtos : List CreateNodeDTO) (edgeDtos : List CreateEdgeDTO) (graph : Nat) :
    Except Err ((Nat × Nat × Nat) × Store) :=
  if edgeDtos.isEmpty then .error .keyError
  else if edgeDtos.any (fun d => d.route.isNone) then .error .typeError
  else
    let total_geometry := bbox (edgeDtos.map (fun d => d.geometry))
    if nodeDtos.isEmpty then .error .keyError
    else if nodeDtos.any (fun d => d.route.isNone) then .error .typeError
    else
      let nodeRecs : List NodeRec := nodeDtos.map (fun d =>
        { type := d.type, properties := d.properties,
          route := truncRoute (d.route.getD ""), point := d.point })
      match (NodeService.create_many (some (intersects total_geometry)) s nodeRecs).result with
      | .error e => .error e
      | .ok (df_nodes, nodesUploaded, s2) =>
        let new_nodes_id := fun (i : Nat) =>
          (df_nodes.find? (fun la => la.1 == i)).map (fun la => la.2.2)
        match remapEdgeDtos new_nodes_id edgeDtos with
        | .error e => .error e
        | .ok edgeRecsIn =>
          match (EdgeService.create_many (some (intersects total_geometry)) s2 edgeRecsIn).result with
          | .error e => .error e
          | .ok (df_edges, edgesUploaded, s3) =>
            match unpack2 edge_create_many_return_shape with
            | .error e => .error e
            | .ok _ =>
              match (GraphService.create_many s3 graph
                  (df_edges.map (fun la => la.2.2))
                  (some (intersects total_geometry))).result with
              | .error e => .error e
              | .ok (_, shipsUploaded, s4) =>
                .ok ((nodesUploaded, edgesUploaded, shipsUploaded), s4)

/-- Concrete node DTO for the C7 failing-input evaluations. -/
def c7nodeDto : CreateNodeDTO :=
  { type := "DRIVE", properties := "{}", route := some "", point := "POINT (0 0)" }

/-- Concrete edge DTO for the C7 failing-input evaluations (`u`/`v` are row
indices into the node list, as the orchestrator's remap expects). -/
def c7edgeDto : CreateEdgeDTO :=
  { u := 0, v := 0, type := "DRIVE", weight := 1, weight_type := "DISTANCE",
    graph := 1, level := "NONE", speed := 60, route := some "",
    properties := "{}", geometry := "LINESTRING (0 0, 1 1)" }

/-- Concrete node record used by counterexamples: submitted twice in one
batch it produces a batch-internal uniqueness violation whose resolving
lookup finds nothing (the conflicting sibling was rolled back, never
committed). -/
def c1rec : NodeRec :=
  { type := "DRIVE", properties := "{}", route := "", point := "POINT (3 4)" }

/-- Concrete edge record for the edge-path side of the C1 witness. -/
def c1erec : EdgeRec :=
  { u := 1, v := 2, type := "DRIVE", weight := 1, weight_type := "DISTANCE",
    level := "NONE", speed := 0, route := "", properties := "{}",
    geometry := "LINESTRING (0 0, 1 1)" }

/-- Concrete node record used by the C9 counterexample. -/
def c9rec : NodeRec :=
  { type := "WALK", properties := "{}", route := "x", point := "POINT (5 6)" }

theorem eq_singleton_of_mem_length_le {α : Type} {l : List α} {x : α}
    (h : x ∈ l) (hl : l.length ≤ 1) : l = [x] := by
  match l, h with
  | [y], h =>
    simp only [List.mem_singleton] at h
    subst h; rfl
  | y :: z :: t, _ => simp at hl

theorem filter_key_eq_of_nodup {α β : Type} [DecidableEq β] (key : α → β) :
    ∀ (l : List α), ((l.map key).Nodup) → ∀ x ∈ l,
      l.filter (fun e => key e == key x) = [x] := by
  intro l hl x hx
  induction l with
  | nil => cases hx
  | cons a t ih =>
    simp only [List.map_cons, List.nodup_cons] at hl
    rcases List.mem_cons.mp hx with h | h
    · subst h
      have : t.filter (fun e => key e == key x) = [] := by
        apply List.filter_eq_nil_iff.mpr
        intro b hb hcontra
        exact hl.1 (by
          have : key b = key x := by simpa using hcontra
          rw [← this]
          exact List.mem_map_of_mem key hb)
      simp [List.filter_cons, this]
    · have hax : key a ≠ key x := by
        intro hk
        exact hl.1 (by rw [hk]; exact List.mem_map_of_mem key h)
      have := ih hl.2 h
      simp [List.filter_cons, hax, this]

theorem nodes_filter_id_singleton {s : Store} (hwf : s.NodesWF) {r : NodeRow}
    (hr : r ∈ s.nodes) : s.nodes.filter (fun x => x.id == r.id) = [r] :=
  filter_key_eq_of_nodup (fun x => x.id) s.nodes hwf.1 r hr

theorem edges_filter_id_singleton {s : Store} (hwf : s.EdgesWF) {r : EdgeRow}
    (hr : r ∈ s.edges) : s.edges.filter (fun x => x.id == r.id) = [r] :=
  filter_key_eq_of_nodup (fun x => x.id) s.edges hwf.1 r hr

/-- The row `NodeService.create` inserts when no geometry match exists: only
`type`, `properties` and `point` come from the DTO; `route` is the column
default `""`. -/
def nodeFreshRow (s : Store) (dto : CreateNodeDTO) : NodeRow :=
  { id := s.nextNodeId, type := dto.type, point := dto.point, route := "",
    properties := dto.properties }

/-- The store after the fresh-node insert of `NodeService.create`. -/
def nodeInsert (s : Store) (dto : CreateNodeDTO) : Store :=
  { s with nodes := s.nodes ++ [nodeFreshRow s dto], nextNodeId := s.nextNodeId + 1 }

/-- The row `EdgeService.create` inserts when no geometry match exists: all
DTO fields, `route` kept as-is (possibly null). -/
def edgeFreshRow (s : Store) (dto : CreateEdgeDTO) : EdgeRow :=
  { id := s.nextEdgeId, u := dto.u, v := dto.v, type := dto.type,
    weight := dto.weight, weight_type := dto.weight_type, level := dto.level,
    speed := dto.speed, route := dto.route, geometry := dto.geometry,
    properties := dto.properties }

/-- The store after the fresh-edge insert of `EdgeService.create`. -/
def edgeInsert (s : Store) (dto : CreateEdgeDTO) : Store :=
  { s with edges := s.edges ++ [edgeFreshRow s dto], nextEdgeId := s.nextEdgeId + 1 }

/-- When a unique geometry match exists, `NodeService.create` returns exactly
that row, whatever its discriminators, and leaves the store unchanged. -/
theorem node_create_reuses_geom_match {s : Store} (hwf : s.NodesWF)
    {dto : CreateNodeDTO} {r : NodeRow} (hr : r ∈ s.nodes) (hp : r.point = dto.point)
    (hu : (nodeGeomMatches s dto.point).length ≤ 1) :
    NodeService.create s dto = .ok (r, s) := by
  have hmem : r ∈ nodeGeomMatches s dto.point := by
    unfold nodeGeomMatches
    refine List.mem_filter.mpr ⟨hr, by simp [hp]⟩
  have hsingle : nodeGeomMatches s dto.point = [r] :=
    eq_singleton_of_mem_length_le hmem hu
  have hsel : NodeService.select_one s r.id = .ok r := by
    unfold NodeService.select_one
    rw [nodes_filter_id_singleton hwf hr]
    rfl
  unfold NodeService.create NodeService.select_one_by_geometry
  rw [hsingle]
  simp only [oneOrNone, Except.map, Option.map]
  rw [hsel]

/-- When a unique geometry match exists, `EdgeService.create` returns exactly
that row, whatever its discriminators, and leaves the store unchanged. -/
theorem edge_create_reuses_geom_match {s : Store} (hwf : s.EdgesWF)
    {dto : CreateEdgeDTO} {r : EdgeRow} (hr : r ∈ s.edges) (hp : r.geometry = dto.geometry)
    (hu : (edgeGeomMatches s dto.geometry).length ≤ 1) :
    EdgeService.create s dto = .ok (r, s) := by
  have hmem : r ∈ edgeGeomMatches s dto.geometry := by
    unfold edgeGeomMatches
    refine List.mem_filter.mpr ⟨hr, by simp [hp]⟩
  have hsingle : edgeGeomMatches s dto.geometry = [r] :=
    eq_singleton_of_mem_length_le hmem hu
  have hsel : EdgeService.select_one s r.id = .ok r := by
    unfold EdgeService.select_one
    rw [edges_filter_id_singleton hwf hr]
    rfl
  unfold EdgeService.create EdgeService.select_one_by_geometry
  rw [hsingle]
  simp only [oneOrNone, Except.map, Option.map]
  rw [hsel]

/-- When no geometry match exists, `NodeService.create` inserts a fresh row
(with `route = ""`, see `nodeFreshRow`). -/
theorem node_create_inserts_of_no_match {s : Store} {dto : CreateNodeDTO}
    (h : nodeGeomMatches s dto.point = []) :
    NodeService.create s dto = .ok (nodeFreshRow s dto, nodeInsert s dto) := by
  unfold NodeService.create NodeService.select_one_by_geometry
  rw [h]
  rfl

/-- When no geometry match exists, `EdgeService.create` inserts a fresh row
with all DTO fields. -/
theorem edge_create_inserts_of_no_match {s : Store} {dto : CreateEdgeDTO}
    (h : edgeGeomMatches s dto.geometry = []) :
    EdgeService.create s dto = .ok (edgeFreshRow s dto, edgeInsert s dto) := by
  unfold EdgeService.create EdgeService.select_one_by_geometry
  rw [h]
  rfl

theorem nodeInsert_WF {s : Store} {dto : CreateNodeDTO} (hwf : s.NodesWF) :
    (nodeInsert s dto).NodesWF := by
  constructor
  · unfold nodeInsert nodeFreshRow
    simp only [List.map_append, List.map_cons, List.map_nil]
    refine List.Nodup.append hwf.1 (List.nodup_singleton _) ?_
    intro i hi hj
    simp only [List.mem_singleton] at hj
    subst hj
    rcases List.mem_map.mp hi with ⟨r, hr, hid⟩
    exact absurd hid (Nat.ne_of_lt (hwf.2 r hr))
  · intro r hr
    unfold nodeInsert nodeFreshRow at hr ⊢
    simp only [List.mem_append, List.mem_singleton] at hr
    rcases hr with hr | hr
    · exact Nat.lt_trans (hwf.2 r hr) (Nat.lt_succ_self _)
    · subst hr
      exact Nat.lt_succ_self _

theorem edgeInsert_WF {s : Store} {dto : CreateEdgeDTO} (hwf : s.EdgesWF) :
    (edgeInsert s dto).EdgesWF := by
  constructor
  · unfold edgeInsert edgeFreshRow
    simp only [List.map_append, List.map_cons, List.map_nil]
    refine List.Nodup.append hwf.1 (List.nodup_singleton _) ?_
    intro i hi hj
    simp only [List.mem_singleton] at hj
    subst hj
    rcases List.mem_map.mp hi with ⟨r, hr, hid⟩
    exact absurd hid (Nat.ne_of_lt (hwf.2 r hr))
  · intro r hr
    unfold edgeInsert edgeFreshRow at hr ⊢
    simp only [List.mem_append, List.mem_singleton] at hr
    rcases hr with hr | hr
    · exact Nat.lt_trans (hwf.2 r hr) (Nat.lt_succ_self _)
    · subst hr
      exact Nat.lt_succ_self _

theorem nodeGeomMatches_insert (s : Store) (dto : CreateNodeDTO) :
    nodeGeomMatches (nodeInsert s dto) dto.point =
      nodeGeomMatches s dto.point ++ [nodeFreshRow s dto] := by
  unfold nodeGeomMatches nodeInsert
  rw [List.filter_append]
  simp [nodeFreshRow]

theorem edgeGeomMatches_insert (s : Store) (dto : CreateEdgeDTO) :
    edgeGeomMatches (edgeInsert s dto) dto.geometry =
      edgeGeomMatches s dto.geometry ++ [edgeFreshRow s dto] := by
  unfold edgeGeomMatches edgeInsert
  rw [List.filter_append]
  simp [edgeFreshRow]

/-- Idempotence of `NodeService.create`: under at most one existing geometry
match, two successive creations of the same DTO yield the same id and the
second call does not change the store. -/
theorem node_create_idem (s : Store) (dto : CreateNodeDTO) (hwf : s.NodesWF)
    (hg : (nodeGeomMatches s dto.point).length ≤ 1) :
    ∃ r1 s1 r2, NodeService.create s dto = .ok (r1, s1) ∧
      NodeService.create s1 dto = .ok (r2, s1) ∧ r2.id = r1.id := by
  match hm : nodeGeomMatches s dto.point with
  | [] =>
    refine ⟨nodeFreshRow s dto, nodeInsert s dto, nodeFreshRow s dto,
      node_create_inserts_of_no_match hm, ?_, rfl⟩
    have hmem : nodeFreshRow s dto ∈ (nodeInsert s dto).nodes := by
      unfold nodeInsert
      simp
    have hmatches : nodeGeomMatches (nodeInsert s dto) dto.point = [nodeFreshRow s dto] := by
      rw [nodeGeomMatches_insert, hm]
      rfl
    exact node_create_reuses_geom_match (nodeInsert_WF hwf) hmem rfl
      (by rw [hmatches]; simp)
  | [r] =>
    have hmem : r ∈ nodeGeomMatches s dto.point := by rw [hm]; exact List.mem_singleton.mpr rfl
    have hr : r ∈ s.nodes := (List.mem_filter.mp hmem).1
    have hp : r.point = dto.point := by
      have := (List.mem_filter.mp hmem).2
      simpa using this
    have hfst := node_create_reuses_geom_match hwf hr hp (by rw [hm]; simp)
    exact ⟨r, s, r, hfst, hfst, rfl⟩
  | _ :: _ :: _ =>
    rw [hm] at hg
    simp at hg

/-- Idempotence of `EdgeService.create`: under at most one existing geometry
match, two successive creations of the same DTO yield the same id and the
second call does not change the store. -/
theorem edge_create_idem (s : Store) (dto : CreateEdgeDTO) (hwf : s.EdgesWF)
    (hg : (edgeGeomMatches s dto.geometry).length ≤ 1) :
    ∃ r1 s1 r2, EdgeService.create s dto = .ok (r1, s1) ∧
      EdgeService.create s1 dto = .ok (r2, s1) ∧ r2.id = r1.id := by
  match hm : edgeGeomMatches s dto.geometry with
  | [] =>
    refine ⟨edgeFreshRow s dto, edgeInsert s dto, edgeFreshRow s dto,
      edge_create_inserts_of_no_match hm, ?_, rfl⟩
    have hmem : edgeFreshRow s dto ∈ (edgeInsert s dto).edges := by
      unfold edgeInsert
      simp
    have hmatches : edgeGeomMatches (edgeInsert s dto) dto.geometry = [edgeFreshRow s dto] := by
      rw [edgeGeomMatches_insert, hm]
      rfl
    exact edge_create_reuses_geom_match (edgeInsert_WF hwf) hmem rfl
      (by rw [hmatches]; simp)
  | [r] =>
    have hmem : r ∈ edgeGeomMatches s dto.geometry := by rw [hm]; exact List.mem_singleton.mpr rfl
    have hr : r ∈ s.edges := (List.mem_filter.mp hmem).1
    have hp : r.geometry = dto.geometry := by
      have := (List.mem_filter.mp hmem).2
      simpa using this
    have hfst := edge_create_reuses_geom_match hwf hr hp (by rw [hm]; simp)
    exact ⟨r, s, r, hfst, hfst, rfl⟩
  | _ :: _ :: _ =>
    rw [hm] at hg
    simp at hg

/-- C3: for every valid creation input (a node DTO or an edge DTO), calling the
single-entity create operation twice yields the same id both times, and the
second call finds the row left by the first call instead of inserting a new
row (the store after the second call equals the store after the first). -/
theorem claim_c3_create_idempotent (s : Store) (ndto : CreateNodeDTO) (edto : CreateEdgeDTO)
    (hnwf : s.NodesWF) (hewf : s.EdgesWF)
    (hng : (nodeGeomMatches s ndto.point).length ≤ 1)
    (heg : (edgeGeomMatches s edto.geometry).length ≤ 1) :
    (∃ r1 s1 r2, NodeService.create s ndto = .ok (r1, s1) ∧
        NodeService.create s1 ndto = .ok (r2, s1) ∧ r2.id = r1.id) ∧
    (∃ r1 s1 r2, EdgeService.create s edto = .ok (r1, s1) ∧
        EdgeService.create s1 edto = .ok (r2, s1) ∧ r2.id = r1.id) :=
  ⟨node_create_idem s ndto hnwf hng, edge_create_idem s edto hewf heg⟩

theorem claim_c3_create_idempotent_witness :
    (∃ r1 s1 r2, NodeService.create emptyStore wNodeDto = .ok (r1, s1) ∧
        NodeService.create s1 wNodeDto = .ok (r2, s1) ∧ r2.id = r1.id) ∧
    (∃ r1 s1 r2, EdgeService.create emptyStore wEdgeDto = .ok (r1, s1) ∧
        EdgeService.create s1 wEdgeDto = .ok (r2, s1) ∧ r2.id = r1.id) :=
  claim_c3_create_idempotent emptyStore wNodeDto wEdgeDto
    (by constructor <;> simp [emptyStore]) (by constructor <;> simp [emptyStore])
    (by simp [nodeGeomMatches, emptyStore]) (by simp [edgeGeomMatches, emptyStore])

/-- C1 counterexample: the claim asserts that a failed resolving lookup makes
the loader drop the row and proceed with no surfaced exception *for both the
node and the edge bulk paths*.  On the node path this is false: a batch
containing the same node record twice triggers a batch-internal uniqueness
violation; the transfer is rolled back, so the resolving lookup finds no
committed row and its `HTTPException(404)` propagates out of
`NodeService.create_many` (the node `_conflict_resolver` has no
try/except). -/
theorem claim_c1_counterexample :
    (NodeService.create_many none emptyStore [c1rec, c1rec]).result =
      .error .notFound := by
  rfl

/-- C1 (amended): when a uniqueness violation occurs and the resolving lookup
for the offending row fails, only the *edge* bulk path drops the row from the
pending batch (and from the record frame) and proceeds without surfacing an
exception; the *node* bulk path propagates the lookup failure to the
caller. -/
theorem claim_c1_resolver_lookup_failure
    (s : Store) (k : NodeKey) (df_nodes : Frame (NodeRec × Option Nat)) (df : Frame NodeRec)
    (t : Store) (ke : EdgeKey) (df_edges : Frame (EdgeRec × Option Nat)) (dfe : Frame EdgeRec)
    (l : Nat)
    (hnlook : NodeService.select_one_by_unique_critique s k.1 k.2.1 k.2.2 = .error .notFound)
    (hfoundlab : frameFirstLabel df_edges (fun ro => ro.1.key == ke) = some l)
    (helook : EdgeService.select_one_by_unique_critique t ke.1 ke.2.1 ke.2.2.1
      ke.2.2.2.1 ke.2.2.2.2 = .error .notFound)
    (hin : frameHasLabel dfe l = true) :
    ((frameFirstLabel df_nodes (fun ro => ro.1.key == k)).isSome →
      NodeService.conflict_resolver s k df_nodes df = .error .notFound) ∧
    EdgeService.conflict_resolver t ke df_edges dfe =
      .ok (frameDropLabel df_edges l, frameDropLabel dfe l) := by
  constructor
  · intro hsome
    unfold NodeService.conflict_resolver
    cases hl : frameFirstLabel df_nodes (fun ro => ro.1.key == k) with
    | none => rw [hl] at hsome; simp at hsome
    | some found => rw [hnlook]
  · unfold EdgeService.conflict_resolver
    rw [hfoundlab, helook]
    simp [hin]

theorem claim_c1_resolver_lookup_failure_witness :
    ((frameFirstLabel [(0, (c1rec, (none : Option Nat)))]
        (fun ro => ro.1.key == c1rec.key)).isSome →
      NodeService.conflict_resolver emptyStore c1rec.key
        [(0, (c1rec, none))] [(0, c1rec)] = .error .notFound) ∧
    EdgeService.conflict_resolver emptyStore c1erec.key
        [(0, (c1erec, none))] [(0, c1erec)] =
      .ok (frameDropLabel [(0, (c1erec, none))] 0, frameDropLabel [(0, c1erec)] 0) :=
  claim_c1_resolver_lookup_failure emptyStore c1rec.key
    [(0, (c1rec, none))] [(0, c1rec)] emptyStore c1erec.key
    [(0, (c1erec, none))] [(0, c1erec)] 0 rfl rfl rfl rfl

theorem nodeBulkLoop_csv (s : Store) :
    ∀ (fuel : Nat) (a : Frame (NodeRec × Option Nat)) (b : Frame NodeRec),
      (nodeBulkLoop s fuel a b).csvOnDisk = !(nodeBulkLoop s fuel a b).result.isOk := by
  intro fuel
  induction fuel with
  | zero => intro a b; rfl
  | succ n ih =>
    intro a b
    unfold nodeBulkLoop
    split
    · split
      · rfl
      · split
        · rfl
        · rfl
    · split
      · rfl
      · apply ih

theorem edgeBulkLoop_csv (s : Store) :
    ∀ (fuel : Nat) (a : Frame (EdgeRec × Option Nat)) (b : Frame EdgeRec),
      (edgeBulkLoop s fuel a b).csvOnDisk = !(edgeBulkLoop s fuel a b).result.isOk := by
  intro fuel
  induction fuel with
  | zero => intro a b; rfl
  | succ n ih =>
    intro a b
    unfold edgeBulkLoop
    split
    · split
      · rfl
      · split
        · rfl
        · rfl
    · split
      · rfl
      · apply ih

theorem shipBulkLoop_csv (s : Store) :
    ∀ (fuel : Nat) (a : Frame ShipRec),
      (shipBulkLoop s fuel a).csvOnDisk = !(shipBulkLoop s fuel a).result.isOk := by
  intro fuel
  induction fuel with
  | zero => intro a; rfl
  | succ n ih =>
    intro a
    unfold shipBulkLoop
    split
    · split
      · rfl
      · rfl
    · split
      · rfl
      · apply ih

/-- C9 counterexample: the claim asserts the serialized CSV batch file is
removed by the time the stage completes on *every* execution path, including
error termination.  False: the `unlink` sits after the retry loop with no
try/finally, so a node stage that terminates with an error (here: a
batch-internal duplicate whose resolving lookup fails) leaves the file on
disk. -/
theorem claim_c9_counterexample :
    (NodeService.create_many none emptyStore [c9rec, c9rec]).result.isOk = false ∧
    (NodeService.create_many none emptyStore [c9rec, c9rec]).csvOnDisk = true :=
  ⟨rfl, rfl⟩

/-- C9 (amended): every bulk-load stage (node, edge, relationship) creates its
CSV batch file before the transfer and removes it exactly when the stage
completes successfully; a stage that terminates with an error leaves the file
on disk (`csvOnDisk` equals the negation of success). -/
theorem claim_c9_csv_removed_iff_success
    (nscope escope : Option (Geom → Bool)) (sscope : Option (Geom → Bool))
    (s t u : Store) (nrecs : List NodeRec) (erecs : List EdgeRecIn)
    (g : Nat) (eids : List Nat) :
    ((NodeService.create_many nscope s nrecs).csvOnDisk =
      !(NodeService.create_many nscope s nrecs).result.isOk) ∧
    ((EdgeService.create_many escope t erecs).csvOnDisk =
      !(EdgeService.create_many escope t erecs).result.isOk) ∧
    ((GraphService.create_many u g eids sscope).csvOnDisk =
      !(GraphService.create_many u g eids sscope).result.isOk) := by
  refine ⟨?_, ?_, ?_⟩
  · unfold NodeService.create_many
    apply nodeBulkLoop_csv
  · unfold EdgeService.create_many
    apply edgeBulkLoop_csv
  · unfold GraphService.create_many
    apply shipBulkLoop_csv

theorem copyNodesGo_routes (df : Frame NodeRec) : ∀ (tbl : List NodeRow) (nid : Nat)
    (ids : List Nat) (tbl2 : List NodeRow) (nid2 : Nat),
    copyNodesGo tbl nid df = .ok (ids, tbl2, nid2) →
    tbl2.map (fun r => r.route) =
      tbl.map (fun r => r.route) ++ df.map (fun la => la.2.route) := by
  induction df with
  | nil =>
    intro tbl nid ids tbl2 nid2 h
    simp only [copyNodesGo, Except.ok.injEq, Prod.mk.injEq] at h
    obtain ⟨-, h2, -⟩ := h
    subst h2
    simp
  | cons hd tail ih =>
    intro tbl nid ids tbl2 nid2 h
    obtain ⟨l, r⟩ := hd
    simp only [copyNodesGo] at h
    by_cases hc : (tbl.filter (fun e => e.key == r.key)).isEmpty
    · rw [if_pos hc] at h
      cases hrec : copyNodesGo (tbl ++ [r.toRow nid]) (nid + 1) tail with
      | error k => rw [hrec] at h; cases h
      | ok trip =>
        obtain ⟨ids3, tbl3, nid3⟩ := trip
        rw [hrec] at h
        simp only [Except.ok.injEq, Prod.mk.injEq] at h
        obtain ⟨-, h2, -⟩ := h
        subst h2
        have hmain := ih (tbl ++ [r.toRow nid]) (nid + 1) ids3 tbl3 nid3 hrec
        rw [hmain, List.map_append]
        simp [NodeRec.toRow, List.append_assoc]
    · rw [if_neg hc] at h
      cases h

theorem copyNodes_routes {s : Store} {df : Frame NodeRec} {res : List Nat} {s2 : Store}
    (h : copyNodes s df = .ok (res, s2)) :
    s2.nodes.map (fun r => r.route) =
      s.nodes.map (fun r => r.route) ++ df.map (fun la => la.2.route) := by
  unfold copyNodes at h
  cases hgo : copyNodesGo s.nodes s.nextNodeId df with
  | error k => rw [hgo] at h; cases h
  | ok trip =>
    obtain ⟨ids, tbl, nid⟩ := trip
    rw [hgo] at h
    simp only [Except.ok.injEq, Prod.mk.injEq] at h
    obtain ⟨-, h2⟩ := h
    have hmain := copyNodesGo_routes df s.nodes s.nextNodeId ids tbl nid hgo
    rw [← h2]
    exact hmain

/-- C10: the single-node create inserts only the type, properties and point
fields — never the DTO's route — so the row it persists carries the column
default empty-string route even when the DTO supplies a non-empty one; the
bulk loader, by contrast, persists exactly the route supplied in each
submitted record. -/
theorem claim_c10_single_create_ignores_route
    (s : Store) (dto : CreateNodeDTO) (h : nodeGeomMatches s dto.point = [])
    (s2 : Store) (df : Frame NodeRec) (res : List Nat) (s3 : Store)
    (hcopy : copyNodes s2 df = .ok (res, s3)) :
    (NodeService.create s dto = .ok (nodeFreshRow s dto, nodeInsert s dto) ∧
      (nodeFreshRow s dto).route = "") ∧
    s3.nodes.map (fun r => r.route) =
      s2.nodes.map (fun r => r.route) ++ df.map (fun la => la.2.route) :=
  ⟨⟨node_create_inserts_of_no_match h, rfl⟩, copyNodes_routes hcopy⟩

theorem claim_c10_single_create_ignores_route_witness :
    c10dto.route = some "R7" ∧
    ((NodeService.create emptyStore c10dto =
        .ok (nodeFreshRow emptyStore c10dto, nodeInsert emptyStore c10dto) ∧
      (nodeFreshRow emptyStore c10dto).route = "") ∧
    c10store.nodes.map (fun r => r.route) =
      emptyStore.nodes.map (fun r => r.route) ++
        [(0, c10rec)].map (fun la => la.2.route)) :=
  ⟨rfl, claim_c10_single_create_ignores_route emptyStore c10dto rfl
    emptyStore [(0, c10rec)] [1] c10store rfl⟩

theorem relCount_cons_self (rel : List ((Nat × Nat) × Nat)) (p : Nat × Nat) (c : Nat) :
    relCount ((p, c) :: rel) p = c + 1 := by
  simp [relCount, relLookup, List.find?]

theorem relCount_cons_ne (rel : List ((Nat × Nat) × Nat)) {p q : Nat × Nat} (c : Nat)
    (h : q ≠ p) : relCount ((q, c) :: rel) p = relCount rel p := by
  simp only [relCount, relLookup, List.find?]
  have : (q == p) = false := beq_false_of_ne h
  rw [this]

theorem assignKeysGo_pair_range (ps : List (Nat × Nat)) :
    ∀ (rel : List ((Nat × Nat) × Nat)) (p : Nat × Nat),
      ((ps.zip (assignKeysGo rel ps)).filter (fun q => q.1 == p)).map (fun q => q.2) =
        List.range' (relCount rel p) ((ps.filter (fun q => q == p)).length) := by
  induction ps with
  | nil => intro rel p; rfl
  | cons q ps ih =>
    intro rel p
    have hstep : assignKeysGo rel (q :: ps) =
        relCount rel q :: assignKeysGo ((q, relCount rel q) :: rel) ps := by
      simp only [assignKeysGo, relCount]
    rw [hstep]
    by_cases hqp : q = p
    · subst hqp
      simp only [List.zip_cons_cons, List.filter_cons, beq_self_eq_true, if_pos,
        List.map_cons, List.length_cons]
      rw [ih ((q, relCount rel q) :: rel) q, relCount_cons_self]
      rfl
    · have hfalse : (q == p) = false := beq_false_of_ne hqp
      simp only [List.zip_cons_cons, List.filter_cons, hfalse, Bool.false_eq_true,
        if_false]
      rw [ih ((q, relCount rel q) :: rel) p, relCount_cons_ne _ _ hqp]

theorem assignKeysGo_getD (ps : List (Nat × Nat)) :
    ∀ (rel : List ((Nat × Nat) × Nat)) (i : Nat), i < ps.length →
      (assignKeysGo rel ps).getD i 0 =
        relCount rel (ps.getD i (0, 0)) +
          ((ps.take i).filter (fun q => q == ps.getD i (0, 0))).length := by
  induction ps with
  | nil => intro rel i h; cases h
  | cons q ps ih =>
    intro rel i h
    have hstep : assignKeysGo rel (q :: ps) =
        relCount rel q :: assignKeysGo ((q, relCount rel q) :: rel) ps := by
      simp only [assignKeysGo, relCount]
    rw [hstep]
    cases i with
    | zero => simp
    | succ j =>
      have hj : j < ps.length := Nat.lt_of_succ_lt_succ h
      have hrec := ih ((q, relCount rel q) :: rel) j hj
      simp only [List.getD_cons_succ, List.take_succ_cons, List.filter_cons]
      rw [hrec]
      by_cases hqp : q = ps.getD j (0, 0)
      · rw [← hqp, relCount_cons_self]
        simp only [beq_self_eq_true, if_pos, List.length_cons]
        omega
      · rw [relCount_cons_ne _ _ hqp]
        have hfalse : (q == ps.getD j (0, 0)) = false := beq_false_of_ne hqp
        simp only [hfalse, Bool.false_eq_true, if_false]

/-- C8: the assembler's key column gives each edge the number of earlier edges
in the returned list with the same ordered pair `(u, v)` — so parallel edges
receive keys 0, 1, 2, ... in exactly returned order, edges with a distinct
pair never influence a key, and the assignment is a pure function of the
returned list (re-running it reproduces identical keys). -/
theorem claim_c8_multigraph_keys (ps : List (Nat × Nat)) :
    (∀ i, i < ps.length →
      (build_nx_graph_keys ps).getD i 0 =
        ((ps.take i).filter (fun q => q == ps.getD i (0, 0))).length) ∧
    (∀ p, ((ps.zip (build_nx_graph_keys ps)).filter (fun q => q.1 == p)).map
        (fun q => q.2) =
      List.range ((ps.filter (fun q => q == p)).length)) := by
  constructor
  · intro i h
    have := assignKeysGo_getD ps [] i h
    simpa [build_nx_graph_keys, relCount, relLookup] using this
  · intro p
    have := assignKeysGo_pair_range ps [] p
    rw [List.range_eq_range']
    simpa [build_nx_graph_keys, relCount, relLookup] using this

theorem claim_c8_multigraph_keys_witness :
    (2 < ([(1, 2), (3, 4), (1, 2), (1, 2)] : List (Nat × Nat)).length ∧
      (build_nx_graph_keys [(1, 2), (3, 4), (1, 2), (1, 2)]).getD 2 0 =
        ((([(1, 2), (3, 4), (1, 2), (1, 2)] : List (Nat × Nat)).take 2).filter
          (fun q => q == ([(1, 2), (3, 4), (1, 2), (1, 2)] : List (Nat × Nat)).getD 2 (0, 0))).length) ∧
    ((([(1, 2), (3, 4), (1, 2), (1, 2)] : List (Nat × Nat)).zip
        (build_nx_graph_keys [(1, 2), (3, 4), (1, 2), (1, 2)])).filter
        (fun q => q.1 == (1, 2))).map (fun q => q.2) =
      List.range ((([(1, 2), (3, 4), (1, 2), (1, 2)] : List (Nat × Nat)).filter
        (fun q => q == (1, 2))).length) :=
  ⟨⟨by decide,
    (claim_c8_multigraph_keys [(1, 2), (3, 4), (1, 2), (1, 2)]).1 2 (by decide)⟩,
   (claim_c8_multigraph_keys [(1, 2), (3, 4), (1, 2), (1, 2)]).2 (1, 2)⟩

/-- C5: the Node Pipeline's `create_many` does return the
`(records, insertedCount)` pair, but the Edge Pipeline's returns only the
bare record frame (`return df_edges`), so the orchestrator's unpacking
`df_edges, edges_uploaded = await self.edge_service.create_many(...)`
iterates the frame's eleven column labels and raises `ValueError`. -/
theorem claim_c5_edge_create_many_not_a_pair (n : Nat) :
    unpack2 (node_create_many_return_shape n) =
      .ok (.dataFrame node_create_many_frame_cols, .pyInt n) ∧
    unpack2 edge_create_many_return_shape = .error .valueError ∧
    edge_create_many_frame_cols.length = 11 :=
  ⟨rfl, rfl, rfl⟩

/-- C7: evaluating the orchestrator at the claim's inputs.  With an empty
edge record set the claim says the node stage runs unscoped and the edge and
relationship counts are reported as 0; the code instead raises `KeyError`
at `df_edges["route"]` (empty frame, no columns) before the node stage.
With a non-empty edge record set the code computes the bounding geometry,
runs the scoped node stage and the remap, but then dies with `ValueError`
unpacking the edge pipeline's DataFrame return, so the scoped relationship
stage never runs either. -/
theorem claim_c7_bulk_upload_raises :
    GraphService.bulk_graph_upload (fun _ => "BOX") (fun _ _ => true) emptyStore
      [c7nodeDto] [] 1 = .error .keyError ∧
    GraphService.bulk_graph_upload (fun _ => "BOX") (fun _ _ => true) emptyStore
      [c7nodeDto] [c7edgeDto] 1 = .error .valueError :=
  ⟨rfl, rfl⟩

theorem df_of_merged {α : Type} :
    ∀ (merged : List (α × Option Nat)) (k : Nat),
      ((((List.enumFrom k merged).filter (fun la => la.2.2.isNone)).map
          (fun la => (la.1, la.2.1))).map (fun la => la.2)) =
        (merged.filter (fun m => m.2.isNone)).map (fun m => m.1) := by
  intro merged
  induction merged with
  | nil => intro k; rfl
  | cons m rest ih =>
    intro k
    obtain ⟨r, o⟩ := m
    cases o with
    | none => simp [List.enumFrom_cons, List.filter_cons, ih (k + 1)]
    | some j => simp [List.enumFrom_cons, List.filter_cons, ih (k + 1)]

theorem countNone_enumFrom {α : Type} :
    ∀ (l : List (α × Option Nat)) (k : Nat),
      countNone (List.enumFrom k l) = (l.filter (fun m => m.2.isNone)).length := by
  intro l
  induction l with
  | nil => intro k; rfl
  | cons m rest ih =>
    intro k
    obtain ⟨r, o⟩ := m
    cases o with
    | none => simp [countNone, List.enumFrom_cons, List.filter_cons] at ih ⊢; simp [ih]
    | some j => simp [countNone, List.enumFrom_cons, List.filter_cons] at ih ⊢; simp [ih]

theorem df_length_of_merged {α : Type} (merged : List (α × Option Nat)) (k : Nat) :
    (((List.enumFrom k merged).filter (fun la => la.2.2.isNone)).map
        (fun la => (la.1, la.2.1))).length = (unmatchedOf merged).length := by
  have h := df_of_merged merged k
  have := congrArg List.length h
  simpa [unmatchedOf] using this

theorem fillIds_assignFresh {α : Type} :
    ∀ (ms : Frame (α × Option Nat)) (nid : Nat),
      toAssigned (fillIds ms (List.range' nid (countNone ms))) =
        some (assignFresh nid ms) := by
  intro ms
  induction ms with
  | nil => intro nid; rfl
  | cons la rest ih =>
    intro nid
    obtain ⟨l, r, o⟩ := la
    cases o with
    | some j =>
      have hc : countNone ((l, (r, some j)) :: rest) = countNone rest := by
        simp [countNone]
      rw [hc]
      show toAssigned ((l, (r, some j)) ::
        fillIds rest (List.range' nid (countNone rest))) = _
      simp only [toAssigned, ih nid, Option.map]
      rfl
    | none =>
      have hc : countNone ((l, (r, none)) :: rest) = countNone rest + 1 := by
        simp [countNone]
      rw [hc]
      show toAssigned ((l, (r, some nid)) ::
        fillIds rest (List.range' (nid + 1) (countNone rest))) = _
      simp only [toAssigned, ih (nid + 1), Option.map]
      rfl

theorem NodeRec.toRow_key (r : NodeRec) (i : Nat) : (r.toRow i).key = r.key := rfl

theorem copyNodesGo_ok_of_fresh :
    ∀ (df : Frame NodeRec) (tbl : List NodeRow) (nid : Nat),
      ((df.map (fun la => la.2.key)).Nodup) →
      (∀ la ∈ df, ∀ e ∈ tbl, e.key ≠ la.2.key) →
      copyNodesGo tbl nid df =
        .ok (List.range' nid df.length,
             tbl ++ rowsWithFreshIds nid (df.map (fun la => la.2)),
             nid + df.length) := by
  intro df
  induction df with
  | nil =>
    intro tbl nid _ _
    simp [copyNodesGo, rowsWithFreshIds, List.range']
  | cons la rest ih =>
    intro tbl nid hdist hfresh
    obtain ⟨l, r⟩ := la
    have hfe : tbl.filter (fun e => e.key == r.key) = [] := by
      apply List.filter_eq_nil_iff.mpr
      intro e he hbe
      exact hfresh (l, r) (List.mem_cons_self _ _) e he (by simpa using hbe)
    have hdist' : (rest.map (fun la => la.2.key)).Nodup := by
      simp only [List.map_cons, List.nodup_cons] at hdist
      exact hdist.2
    have hhead : r.key ∉ rest.map (fun la => la.2.key) := by
      simp only [List.map_cons, List.nodup_cons] at hdist
      exact hdist.1
    have hfresh' : ∀ la ∈ rest, ∀ e ∈ tbl ++ [r.toRow nid], e.key ≠ la.2.key := by
      intro la2 hla e he
      rcases List.mem_append.mp he with he | he
      · exact hfresh la2 (List.mem_cons_of_mem _ hla) e he
      · simp only [List.mem_singleton] at he
        subst he
        rw [NodeRec.toRow_key]
        intro hkey
        exact hhead (hkey ▸ List.mem_map_of_mem (fun la => la.2.key) hla)
    simp only [copyNodesGo, hfe, List.isEmpty_nil, if_pos]
    rw [ih (tbl ++ [r.toRow nid]) (nid + 1) hdist' hfresh']
    have harith : nid + 1 + rest.length = nid + (rest.length + 1) := by omega
    simp [List.range', rowsWithFreshIds, List.append_assoc, harith]

theorem copyNodes_ok_of_fresh (s : Store) (df : Frame NodeRec)
    (hdist : (df.map (fun la => la.2.key)).Nodup)
    (hfresh : ∀ la ∈ df, ∀ e ∈ s.nodes, e.key ≠ la.2.key) :
    copyNodes s df =
      .ok (List.range' s.nextNodeId df.length,
           { s with
             nodes := s.nodes ++ rowsWithFreshIds s.nextNodeId (df.map (fun la => la.2)),
             nextNodeId := s.nextNodeId + df.length }) := by
  unfold copyNodes
  rw [copyNodesGo_ok_of_fresh df s.nodes s.nextNodeId hdist hfresh]

theorem matchesRec_toRow_iff (q r : EdgeRec) (i : Nat) :
    (q.toRow i).matchesRec r = true ↔ q.key = r.key := by
  simp only [EdgeRec.toRow, EdgeRow.matchesRec, EdgeRec.key, Bool.and_eq_true,
    beq_iff_eq, Option.some.injEq, Prod.mk.injEq]
  tauto

theorem edgeRowsConflict_toRow (e : EdgeRow) (r : EdgeRec) (i : Nat) :
    edgeRowsConflict e (r.toRow i) = e.matchesRec r := by
  simp only [edgeRowsConflict, EdgeRec.toRow, EdgeRow.matchesRec]
  cases e.route <;> simp

theorem copyEdgesGo_ok_of_fresh :
    ∀ (df : Frame EdgeRec) (tbl : List EdgeRow) (eid : Nat),
      ((df.map (fun la => la.2.key)).Nodup) →
      (∀ la ∈ df, ∀ e ∈ tbl, e.matchesRec la.2 = false) →
      copyEdgesGo tbl eid df =
        .ok (List.range' eid df.length,
             tbl ++ edgeRowsWithFreshIds eid (df.map (fun la => la.2)),
             eid + df.length) := by
  intro df
  induction df with
  | nil =>
    intro tbl eid _ _
    simp [copyEdgesGo, edgeRowsWithFreshIds, List.range']
  | cons la rest ih =>
    intro tbl eid hdist hfresh
    obtain ⟨l, r⟩ := la
    have hfe : tbl.filter (fun e => edgeRowsConflict e (r.toRow eid)) = [] := by
      apply List.filter_eq_nil_iff.mpr
      intro e he hbe
      rw [edgeRowsConflict_toRow] at hbe
      rw [hfresh (l, r) (List.mem_cons_self _ _) e he] at hbe
      cases hbe
    have hdist' : (rest.map (fun la => la.2.key)).Nodup := by
      simp only [List.map_cons, List.nodup_cons] at hdist
      exact hdist.2
    have hhead : r.key ∉ rest.map (fun la => la.2.key) := by
      simp only [List.map_cons, List.nodup_cons] at hdist
      exact hdist.1
    have hfresh' : ∀ la ∈ rest, ∀ e ∈ tbl ++ [r.toRow eid], e.matchesRec la.2 = false := by
      intro la2 hla e he
      rcases List.mem_append.mp he with he | he
      · exact hfresh la2 (List.mem_cons_of_mem _ hla) e he
      · simp only [List.mem_singleton] at he
        subst he
        by_contra hb
        have htrue : (r.toRow eid).matchesRec la2.2 = true := by
          cases hx : (r.toRow eid).matchesRec la2.2
          · exact absurd hx hb
          · rfl
        have hkey := (matchesRec_toRow_iff r la2.2 eid).mp htrue
        exact hhead (hkey ▸ List.mem_map_of_mem (fun la => la.2.key) hla)
    simp only [copyEdgesGo, hfe, List.isEmpty_nil, if_pos]
    rw [ih (tbl ++ [r.toRow eid]) (eid + 1) hdist' hfresh']
    have harith : eid + 1 + rest.length = eid + (rest.length + 1) := by omega
    simp [List.range', edgeRowsWithFreshIds, List.append_assoc, harith]

theorem copyEdges_ok_of_fresh (s : Store) (df : Frame EdgeRec)
    (hdist : (df.map (fun la => la.2.key)).Nodup)
    (hfresh : ∀ la ∈ df, ∀ e ∈ s.edges, e.matchesRec la.2 = false) :
    copyEdges s df =
      .ok (List.range' s.nextEdgeId df.length,
           { s with
             edges := s.edges ++ edgeRowsWithFreshIds s.nextEdgeId (df.map (fun la => la.2)),
             nextEdgeId := s.nextEdgeId + df.length }) := by
  unfold copyEdges
  rw [copyEdgesGo_ok_of_fresh df s.edges s.nextEdgeId hdist hfresh]

theorem nodeBulkRun (s : Store) (merged : List (NodeRec × Option Nat))
    (hdist : ((unmatchedOf merged).map NodeRec.key).Nodup)
    (hfresh : ∀ r ∈ unmatchedOf merged, ∀ e ∈ s.nodes, e.key ≠ r.key) :
    nodeBulkLoop s
        ((((merged.enum).filter (fun la => la.2.2.isNone)).map
          (fun la => (la.1, la.2.1))).length + 1)
        merged.enum
        (((merged.enum).filter (fun la => la.2.2.isNone)).map
          (fun la => (la.1, la.2.1))) =
      ⟨.ok (assignFresh s.nextNodeId merged.enum, (unmatchedOf merged).length,
            { s with
              nodes := s.nodes ++ rowsWithFreshIds s.nextNodeId (unmatchedOf merged),
              nextNodeId := s.nextNodeId + (unmatchedOf merged).length }),
       false⟩ := by
  have henum : merged.enum = List.enumFrom 0 merged := rfl
  set df := ((merged.enum).filter (fun la => la.2.2.isNone)).map
    (fun la => (la.1, la.2.1)) with hdf
  have hsnd : df.map (fun la => la.2) = unmatchedOf merged := by
    rw [hdf, henum, unmatchedOf]
    exact df_of_merged merged 0
  have hlen : df.length = (unmatchedOf merged).length := by
    rw [← hsnd]
    simp
  have hdist2 : (df.map (fun la => la.2.key)).Nodup := by
    have hmm : df.map (fun la => la.2.key) = (unmatchedOf merged).map NodeRec.key := by
      rw [← hsnd]
      simp only [List.map_map]
      rfl
    rw [hmm]
    exact hdist
  have hfresh2 : ∀ la ∈ df, ∀ e ∈ s.nodes, e.key ≠ la.2.key := by
    intro la hla e he
    apply hfresh la.2 _ e he
    rw [← hsnd]
    exact List.mem_map_of_mem (fun la => la.2) hla
  have hcopy := copyNodes_ok_of_fresh s df hdist2 hfresh2
  have hcount : countNone merged.enum = df.length := by
    rw [hlen, henum, countNone_enumFrom merged 0, unmatchedOf, List.length_map]
  show nodeBulkLoop s (df.length + 1) merged.enum df = _
  unfold nodeBulkLoop
  rw [hcopy]
  have hreslen : (List.range' s.nextNodeId df.length).length = df.length :=
    List.length_range' _ _ _
  simp only [hreslen]
  have hnolt : ¬ (df.length < countNone merged.enum) := by
    rw [hcount]
    omega
  rw [if_neg hnolt]
  have hrange : List.range' s.nextNodeId df.length =
      List.range' s.nextNodeId (countNone merged.enum) := by rw [hcount]
  rw [hrange, fillIds_assignFresh merged.enum s.nextNodeId, hsnd, hlen]

theorem edgeBulkRun (s : Store) (merged : List (EdgeRec × Option Nat))
    (hdist : ((unmatchedOf merged).map EdgeRec.key).Nodup)
    (hfresh : ∀ r ∈ unmatchedOf merged, ∀ e ∈ s.edges, e.matchesRec r = false) :
    edgeBulkLoop s
        ((((merged.enum).filter (fun la => la.2.2.isNone)).map
          (fun la => (la.1, la.2.1))).length + 1)
        merged.enum
        (((merged.enum).filter (fun la => la.2.2.isNone)).map
          (fun la => (la.1, la.2.1))) =
      ⟨.ok (assignFresh s.nextEdgeId merged.enum, (unmatchedOf merged).length,
            { s with
              edges := s.edges ++ edgeRowsWithFreshIds s.nextEdgeId (unmatchedOf merged),
              nextEdgeId := s.nextEdgeId + (unmatchedOf merged).length }),
       false⟩ := by
  have henum : merged.enum = List.enumFrom 0 merged := rfl
  set df := ((merged.enum).filter (fun la => la.2.2.isNone)).map
    (fun la => (la.1, la.2.1)) with hdf
  have hsnd : df.map (fun la => la.2) = unmatchedOf merged := by
    rw [hdf, henum, unmatchedOf]
    exact df_of_merged merged 0
  have hlen : df.length = (unmatchedOf merged).length := by
    rw [← hsnd]
    simp
  have hdist2 : (df.map (fun la => la.2.key)).Nodup := by
    have hmm : df.map (fun la => la.2.key) = (unmatchedOf merged).map EdgeRec.key := by
      rw [← hsnd]
      simp only [List.map_map]
      rfl
    rw [hmm]
    exact hdist
  have hfresh2 : ∀ la ∈ df, ∀ e ∈ s.edges, e.matchesRec la.2 = false := by
    intro la hla e he
    apply hfresh la.2 _ e he
    rw [← hsnd]
    exact List.mem_map_of_mem (fun la => la.2) hla
  have hcopy := copyEdges_ok_of_fresh s df hdist2 hfresh2
  have hcount : countNone merged.enum = df.length := by
    rw [hlen, henum, countNone_enumFrom merged 0, unmatchedOf, List.length_map]
  show edgeBulkLoop s (df.length + 1) merged.enum df = _
  unfold edgeBulkLoop
  rw [hcopy]
  have hreslen : (List.range' s.nextEdgeId df.length).length = df.length :=
    List.length_range' _ _ _
  simp only [hreslen]
  have hnolt : ¬ (df.length < countNone merged.enum) := by
    rw [hcount]
    omega
  rw [if_neg hnolt]
  have hrange : List.range' s.nextEdgeId df.length =
      List.range' s.nextEdgeId (countNone merged.enum) := by rw [hcount]
  rw [hrange, fillIds_assignFresh merged.enum s.nextEdgeId, hsnd, hlen]

theorem nodeLeftJoin_cons (r : NodeRec) (rest : List NodeRec) (existing : List NodeRow) :
    nodeLeftJoin (r :: rest) existing =
      (match existing.filter (fun e => e.key == r.key) with
       | [] => [(r, none)]
       | ms => ms.map (fun e => (r, some e.id))) ++ nodeLeftJoin rest existing := by
  simp [nodeLeftJoin, List.flatMap_cons]

theorem edgeLeftJoin_cons (r : EdgeRec) (rest : List EdgeRec) (existing : List EdgeRow) :
    edgeLeftJoin (r :: rest) existing =
      (match existing.filter (fun e => e.matchesRec r) with
       | [] => [(r, none)]
       | ms => ms.map (fun e => (r, some e.id))) ++ edgeLeftJoin rest existing := by
  simp [edgeLeftJoin, List.flatMap_cons]

theorem nodeLeftJoin_filter_none (existing : List NodeRow) :
    ∀ (recs : List NodeRec),
      (nodeLeftJoin recs existing).filter (fun m => m.2.isNone) =
        (nodeUnmatched existing recs).map (fun r => (r, none)) := by
  intro recs
  induction recs with
  | nil => rfl
  | cons r rest ih =>
    rw [nodeLeftJoin_cons]
    cases hm : existing.filter (fun e => e.key == r.key) with
    | nil =>
      have hru : nodeUnmatched existing (r :: rest) = r :: nodeUnmatched existing rest := by
        unfold nodeUnmatched
        rw [List.filter_cons]
        simp [hm]
      rw [hru, List.filter_append, ih]
      simp
    | cons m ms =>
      have hru : nodeUnmatched existing (r :: rest) = nodeUnmatched existing rest := by
        unfold nodeUnmatched
        rw [List.filter_cons]
        simp [hm]
      rw [hru, List.filter_append, ih]
      have hnone : ((m :: ms).map (fun e => (r, some e.id))).filter
          (fun m => m.2.isNone) = [] := by
        apply List.filter_eq_nil_iff.mpr
        intro x hx
        rcases List.mem_map.mp hx with ⟨e, -, heq⟩
        subst heq
        simp
      rw [hnone]
      rfl

theorem unmatchedOf_nodeLeftJoin (recs : List NodeRec) (existing : List NodeRow) :
    unmatchedOf (nodeLeftJoin recs existing) = nodeUnmatched existing recs := by
  rw [unmatchedOf, nodeLeftJoin_filter_none existing recs, List.map_map]
  have hid : ((fun (m : NodeRec × Option Nat) => m.1) ∘
      fun (r : NodeRec) => ((r, none) : NodeRec × Option Nat)) = id := rfl
  rw [hid, List.map_id]

theorem nodeLeftJoin_some_mem (existing : List NodeRow) :
    ∀ (recs : List NodeRec) (r : NodeRec) (i : Nat),
      (r, some i) ∈ nodeLeftJoin recs existing →
        ∃ e ∈ existing, e.key = r.key ∧ e.id = i := by
  intro recs
  induction recs with
  | nil => intro r i h; cases h
  | cons q rest ih =>
    intro r i h
    rw [nodeLeftJoin_cons] at h
    rcases List.mem_append.mp h with h | h
    · cases hm : existing.filter (fun e => e.key == q.key) with
      | nil =>
        rw [hm] at h
        simp at h
      | cons m ms =>
        rw [hm] at h
        rcases List.mem_map.mp h with ⟨e, he, heq⟩
        have hef : e ∈ existing.filter (fun e => e.key == q.key) := by
          rw [hm]
          exact he
        have hmem := List.mem_filter.mp hef
        simp only [Prod.mk.injEq, Option.some.injEq] at heq
        refine ⟨e, hmem.1, ?_, heq.2⟩
        have hk : e.key = q.key := by simpa using hmem.2
        rw [hk, heq.1]
    · exact ih r i h

theorem edgeLeftJoin_filter_none (existing : List EdgeRow) :
    ∀ (recs : List EdgeRec),
      (edgeLeftJoin recs existing).filter (fun m => m.2.isNone) =
        (edgeUnmatched existing recs).map (fun r => (r, none)) := by
  intro recs
  induction recs with
  | nil => rfl
  | cons r rest ih =>
    rw [edgeLeftJoin_cons]
    cases hm : existing.filter (fun e => e.matchesRec r) with
    | nil =>
      have hru : edgeUnmatched existing (r :: rest) = r :: edgeUnmatched existing rest := by
        unfold edgeUnmatched
        rw [List.filter_cons]
        simp [hm]
      rw [hru, List.filter_append, ih]
      simp
    | cons m ms =>
      have hru : edgeUnmatched existing (r :: rest) = edgeUnmatched existing rest := by
        unfold edgeUnmatched
        rw [List.filter_cons]
        simp [hm]
      rw [hru, List.filter_append, ih]
      have hnone : ((m :: ms).map (fun e => (r, some e.id))).filter
          (fun m => m.2.isNone) = [] := by
        apply List.filter_eq_nil_iff.mpr
        intro x hx
        rcases List.mem_map.mp hx with ⟨e, -, heq⟩
        subst heq
        simp
      rw [hnone]
      rfl

theorem unmatchedOf_edgeLeftJoin (recs : List EdgeRec) (existing : List EdgeRow) :
    unmatchedOf (edgeLeftJoin recs existing) = edgeUnmatched existing recs := by
  rw [unmatchedOf, edgeLeftJoin_filter_none existing recs, List.map_map]
  have hid : ((fun (m : EdgeRec × Option Nat) => m.1) ∘
      fun (r : EdgeRec) => ((r, none) : EdgeRec × Option Nat)) = id := rfl
  rw [hid, List.map_id]

theorem edgeLeftJoin_some_mem (existing : List EdgeRow) :
    ∀ (recs : List EdgeRec) (r : EdgeRec) (i : Nat),
      (r, some i) ∈ edgeLeftJoin recs existing →
        ∃ e ∈ existing, e.matchesRec r = true ∧ e.id = i := by
  intro recs
  induction recs with
  | nil => intro r i h; cases h
  | cons q rest ih =>
    intro r i h
    rw [edgeLeftJoin_cons] at h
    rcases List.mem_append.mp h with h | h
    · cases hm : existing.filter (fun e => e.matchesRec q) with
      | nil =>
        rw [hm] at h
        simp at h
      | cons m ms =>
        rw [hm] at h
        rcases List.mem_map.mp h with ⟨e, he, heq⟩
        have hef : e ∈ existing.filter (fun e => e.matchesRec q) := by
          rw [hm]
          exact he
        have hmem := List.mem_filter.mp hef
        simp only [Prod.mk.injEq, Option.some.injEq] at heq
        refine ⟨e, hmem.1, ?_, heq.2⟩
        rw [← heq.1]
        exact hmem.2
    · exact ih r i h

theorem nodeCreateMany_dedup_run (f : Geom → Bool) (s : Store) (recs : List NodeRec)
    (hne : nodeScopedExisting s f ≠ [])
    (hdist : ((unmatchedOf (nodeLeftJoin recs (nodeScopedExisting s f))).map
      NodeRec.key).Nodup)
    (hfresh : ∀ r ∈ unmatchedOf (nodeLeftJoin recs (nodeScopedExisting s f)),
      ∀ e ∈ s.nodes, e.key ≠ r.key) :
    (NodeService.create_many (some f) s recs).result =
      .ok (assignFresh s.nextNodeId (nodeLeftJoin recs (nodeScopedExisting s f)).enum,
           (unmatchedOf (nodeLeftJoin recs (nodeScopedExisting s f))).length,
           { s with
             nodes := s.nodes ++ rowsWithFreshIds s.nextNodeId
               (unmatchedOf (nodeLeftJoin recs (nodeScopedExisting s f))),
             nextNodeId := s.nextNodeId +
               (unmatchedOf (nodeLeftJoin recs (nodeScopedExisting s f))).length }) := by
  have hie : (nodeScopedExisting s f).isEmpty = false := by
    cases hh : nodeScopedExisting s f with
    | nil => exact absurd hh hne
    | cons a l => rfl
  unfold NodeService.create_many nodeExistingFor
  simp only [hie, Bool.false_eq_true, if_false]
  rw [nodeBulkRun s (nodeLeftJoin recs (nodeScopedExisting s f)) hdist hfresh]

theorem edgeCreateMany_dedup_run (g : Geom → Bool) (t : Store) (recsIn : List EdgeRecIn)
    (hne : edgeScopedExisting t (some g) ≠ [])
    (hdist : ((unmatchedOf (edgeLeftJoin (recsIn.map EdgeRecIn.prep)
      (edgeScopedExisting t (some g)))).map EdgeRec.key).Nodup)
    (hfresh : ∀ r ∈ unmatchedOf (edgeLeftJoin (recsIn.map EdgeRecIn.prep)
      (edgeScopedExisting t (some g))), ∀ e ∈ t.edges, e.matchesRec r = false) :
    (EdgeService.create_many (some g) t recsIn).result =
      .ok (assignFresh t.nextEdgeId (edgeLeftJoin (recsIn.map EdgeRecIn.prep)
             (edgeScopedExisting t (some g))).enum,
           (unmatchedOf (edgeLeftJoin (recsIn.map EdgeRecIn.prep)
             (edgeScopedExisting t (some g)))).length,
           { t with
             edges := t.edges ++ edgeRowsWithFreshIds t.nextEdgeId
               (unmatchedOf (edgeLeftJoin (recsIn.map EdgeRecIn.prep)
                 (edgeScopedExisting t (some g)))),
             nextEdgeId := t.nextEdgeId +
               (unmatchedOf (edgeLeftJoin (recsIn.map EdgeRecIn.prep)
                 (edgeScopedExisting t (some g)))).length }) := by
  have hie : (edgeScopedExisting t (some g)).isEmpty = false := by
    cases hh : edgeScopedExisting t (some g) with
    | nil => exact absurd hh hne
    | cons a l => rfl
  unfold EdgeService.create_many
  simp only [hie, Bool.false_eq_true, if_false]
  rw [edgeBulkRun t (edgeLeftJoin (recsIn.map EdgeRecIn.prep)
    (edgeScopedExisting t (some g))) hdist hfresh]

/-- C2: when the pre-filter query returns a non-empty existing-row set, the
left merge on the dedup key carries each matched existing row's id into
`new_id` (second conjunct of each half), those rows are excluded from the
loader submission — only the unmatched records are persisted — and after a
successful transfer the loader-assigned consecutive ids are written, in
submission order, only into the rows whose `new_id` was still unassigned
(`assignFresh`); every row of the returned frame carries an integer id
(the frame's type is `Frame (_ × Nat)`).  The successful-transfer premises
are that the submitted records' keys are distinct and absent from the
table. -/
theorem claim_c2_create_many_dedup
    (f : Geom → Bool) (s : Store) (recs : List NodeRec)
    (g : Geom → Bool) (t : Store) (erecsIn : List EdgeRecIn)
    (hne : nodeScopedExisting s f ≠ [])
    (hdist : ((nodeUnmatched (nodeScopedExisting s f) recs).map NodeRec.key).Nodup)
    (hfresh : ∀ r ∈ nodeUnmatched (nodeScopedExisting s f) recs,
      ∀ e ∈ s.nodes, e.key ≠ r.key)
    (hene : edgeScopedExisting t (some g) ≠ [])
    (hedist : ((edgeUnmatched (edgeScopedExisting t (some g))
      (erecsIn.map EdgeRecIn.prep)).map EdgeRec.key).Nodup)
    (hefresh : ∀ r ∈ edgeUnmatched (edgeScopedExisting t (some g))
      (erecsIn.map EdgeRecIn.prep), ∀ e ∈ t.edges, e.matchesRec r = false) :
    ((NodeService.create_many (some f) s recs).result =
        .ok (assignFresh s.nextNodeId
               (nodeLeftJoin recs (nodeScopedExisting s f)).enum,
             (nodeUnmatched (nodeScopedExisting s f) recs).length,
             { s with
               nodes := s.nodes ++ rowsWithFreshIds s.nextNodeId
                 (nodeUnmatched (nodeScopedExisting s f) recs),
               nextNodeId := s.nextNodeId +
                 (nodeUnmatched (nodeScopedExisting s f) recs).length }) ∧
      (∀ r i, (r, some i) ∈ nodeLeftJoin recs (nodeScopedExisting s f) →
        ∃ e ∈ nodeScopedExisting s f, e.key = r.key ∧ e.id = i)) ∧
    ((EdgeService.create_many (some g) t erecsIn).result =
        .ok (assignFresh t.nextEdgeId
               (edgeLeftJoin (erecsIn.map EdgeRecIn.prep)
                 (edgeScopedExisting t (some g))).enum,
             (edgeUnmatched (edgeScopedExisting t (some g))
               (erecsIn.map EdgeRecIn.prep)).length,
             { t with
               edges := t.edges ++ edgeRowsWithFreshIds t.nextEdgeId
                 (edgeUnmatched (edgeScopedExisting t (some g))
                   (erecsIn.map EdgeRecIn.prep)),
               nextEdgeId := t.nextEdgeId +
                 (edgeUnmatched (edgeScopedExisting t (some g))
                   (erecsIn.map EdgeRecIn.prep)).length }) ∧
      (∀ r i, (r, some i) ∈ edgeLeftJoin (erecsIn.map EdgeRecIn.prep)
          (edgeScopedExisting t (some g)) →
        ∃ e ∈ edgeScopedExisting t (some g), e.matchesRec r = true ∧ e.id = i)) := by
  refine ⟨⟨?_, fun r i h => nodeLeftJoin_some_mem _ _ r i h⟩,
          ⟨?_, fun r i h => edgeLeftJoin_some_mem _ _ r i h⟩⟩
  · rw [← unmatchedOf_nodeLeftJoin recs (nodeScopedExisting s f)] at hdist hfresh ⊢
    exact nodeCreateMany_dedup_run f s recs hne hdist hfresh
  · rw [← unmatchedOf_edgeLeftJoin (erecsIn.map EdgeRecIn.prep)
      (edgeScopedExisting t (some g))] at hedist hefresh ⊢
    exact edgeCreateMany_dedup_run g t erecsIn hene hedist hefresh

theorem claim_c2_create_many_dedup_witness :
    ((NodeService.create_many (some w2f) w2s [w2recA, w2recB]).result =
        .ok (assignFresh w2s.nextNodeId
               (nodeLeftJoin [w2recA, w2recB] (nodeScopedExisting w2s w2f)).enum,
             (nodeUnmatched (nodeScopedExisting w2s w2f) [w2recA, w2recB]).length,
             { w2s with
               nodes := w2s.nodes ++ rowsWithFreshIds w2s.nextNodeId
                 (nodeUnmatched (nodeScopedExisting w2s w2f) [w2recA, w2recB]),
               nextNodeId := w2s.nextNodeId +
                 (nodeUnmatched (nodeScopedExisting w2s w2f) [w2recA, w2recB]).length }) ∧
      (∀ r i, (r, some i) ∈ nodeLeftJoin [w2recA, w2recB] (nodeScopedExisting w2s w2f) →
        ∃ e ∈ nodeScopedExisting w2s w2f, e.key = r.key ∧ e.id = i)) ∧
    ((EdgeService.create_many (some w2f) w2t [w2erecA, w2erecB]).result =
        .ok (assignFresh w2t.nextEdgeId
               (edgeLeftJoin ([w2erecA, w2erecB].map EdgeRecIn.prep)
                 (edgeScopedExisting w2t (some w2f))).enum,
             (edgeUnmatched (edgeScopedExisting w2t (some w2f))
               ([w2erecA, w2erecB].map EdgeRecIn.prep)).length,
             { w2t with
               edges := w2t.edges ++ edgeRowsWithFreshIds w2t.nextEdgeId
                 (edgeUnmatched (edgeScopedExisting w2t (some w2f))
                   ([w2erecA, w2erecB].map EdgeRecIn.prep)),
               nextEdgeId := w2t.nextEdgeId +
                 (edgeUnmatched (edgeScopedExisting w2t (some w2f))
                   ([w2erecA, w2erecB].map EdgeRecIn.prep)).length }) ∧
      (∀ r i, (r, some i) ∈ edgeLeftJoin ([w2erecA, w2erecB].map EdgeRecIn.prep)
          (edgeScopedExisting w2t (some w2f)) →
        ∃ e ∈ edgeScopedExisting w2t (some w2f), e.matchesRec r = true ∧ e.id = i)) :=
  claim_c2_create_many_dedup w2f w2s [w2recA, w2recB] w2f w2t [w2erecA, w2erecB]
    (by decide) (by decide) (by decide) (by decide) (by decide) (by decide)

theorem nodeLeftJoin_no_matches (existing : List NodeRow) :
    ∀ (recs : List NodeRec),
      (∀ r ∈ recs, existing.filter (fun e => e.key == r.key) = []) →
      nodeLeftJoin recs existing = recs.map (fun r => (r, none)) := by
  intro recs
  induction recs with
  | nil => intro h; rfl
  | cons r rest ih =>
    intro h
    rw [nodeLeftJoin_cons, h r (List.mem_cons_self _ _),
      ih (fun q hq => h q (List.mem_cons_of_mem _ hq))]
    rfl

theorem edgeLeftJoin_no_matches (existing : List EdgeRow) :
    ∀ (recs : List EdgeRec),
      (∀ r ∈ recs, existing.filter (fun e => e.matchesRec r) = []) →
      edgeLeftJoin recs existing = recs.map (fun r => (r, none)) := by
  intro recs
  induction recs with
  | nil => intro h; rfl
  | cons r rest ih =>
    intro h
    rw [edgeLeftJoin_cons, h r (List.mem_cons_self _ _),
      ih (fun q hq => h q (List.mem_cons_of_mem _ hq))]
    rfl

theorem unmatchedOf_all_none {α : Type} (recs : List α) :
    unmatchedOf (recs.map (fun r => (r, (none : Option Nat)))) = recs := by
  induction recs with
  | nil => rfl
  | cons r rest ih =>
    simp only [unmatchedOf, List.map_cons, List.filter_cons, Option.isNone_none,
      if_pos] at ih ⊢
    rw [ih]

theorem nodeExistingFor_subset (s : Store) (scope : Option (Geom → Bool)) :
    ∀ e ∈ nodeExistingFor s scope, e ∈ s.nodes := by
  intro e he
  cases scope with
  | none => exact he
  | some f => exact (List.mem_filter.mp he).1

theorem edgeScopedExisting_subset (s : Store) (scope : Option (Geom → Bool)) :
    ∀ e ∈ edgeScopedExisting s scope, e ∈ s.edges := by
  intro e he
  cases scope with
  | none => exact he
  | some f =>
    simp only [edgeScopedExisting, List.mem_flatMap] at he
    rcases he with ⟨e2, he2, hmem⟩
    rcases List.mem_map.mp hmem with ⟨-, -, heq⟩
    rw [← heq]
    exact he2

theorem matchesRec_geometry {e : EdgeRow} {r : EdgeRec}
    (h : e.matchesRec r = true) : e.geometry = r.geometry := by
  simp only [EdgeRow.matchesRec, Bool.and_eq_true, beq_iff_eq] at h
  exact h.1.2

theorem nodeCreateMany_all_fresh_run (scope : Option (Geom → Bool)) (s : Store)
    (recs : List NodeRec)
    (hnomatch : ∀ r ∈ recs, ∀ e ∈ s.nodes, e.point ≠ r.point)
    (hdistp : (recs.map (fun r => r.point)).Nodup) :
    (NodeService.create_many scope s recs).result =
      .ok (assignFresh s.nextNodeId (recs.map (fun r => (r, none))).enum,
           recs.length,
           { s with
             nodes := s.nodes ++ rowsWithFreshIds s.nextNodeId recs,
             nextNodeId := s.nextNodeId + recs.length }) := by
  have hdistk : (recs.map NodeRec.key).Nodup := by
    apply List.Nodup.of_map (fun (k : NodeKey) => k.2.1)
    rw [List.map_map]
    exact hdistp
  have hfilters : ∀ r ∈ recs,
      (nodeExistingFor s scope).filter (fun e => e.key == r.key) = [] := by
    intro r hr
    apply List.filter_eq_nil_iff.mpr
    intro e he hbe
    have hkey : e.key = r.key := by simpa using hbe
    have hpoint : e.point = r.point := congrArg (fun (k : NodeKey) => k.2.1) hkey
    exact hnomatch r hr e (nodeExistingFor_subset s scope e he) hpoint
  have hmerged : (if (nodeExistingFor s scope).isEmpty
        then recs.map (fun r => (r, none))
        else nodeLeftJoin recs (nodeExistingFor s scope)) =
      recs.map (fun r => (r, none)) := by
    by_cases hie : (nodeExistingFor s scope).isEmpty
    · rw [if_pos hie]
    · rw [if_neg hie, nodeLeftJoin_no_matches _ recs hfilters]
  have hdist2 : ((unmatchedOf (recs.map (fun r => (r, none)))).map NodeRec.key).Nodup := by
    rw [unmatchedOf_all_none]
    exact hdistk
  have hfresh2 : ∀ r ∈ unmatchedOf (recs.map (fun r => (r, none))),
      ∀ e ∈ s.nodes, e.key ≠ r.key := by
    rw [unmatchedOf_all_none]
    intro r hr e he hkey
    exact hnomatch r hr e he (congrArg (fun (k : NodeKey) => k.2.1) hkey)
  unfold NodeService.create_many
  simp only [hmerged]
  rw [nodeBulkRun s (recs.map (fun r => (r, none))) hdist2 hfresh2,
    unmatchedOf_all_none]

theorem edgeCreateMany_all_fresh_run (scope : Option (Geom → Bool)) (t : Store)
    (recsIn : List EdgeRecIn)
    (hnomatch : ∀ r ∈ recsIn, ∀ e ∈ t.edges, e.geometry ≠ r.geometry)
    (hdistg : (recsIn.map (fun r => r.geometry)).Nodup) :
    (EdgeService.create_many scope t recsIn).result =
      .ok (assignFresh t.nextEdgeId
             ((recsIn.map EdgeRecIn.prep).map (fun r => (r, none))).enum,
           (recsIn.map EdgeRecIn.prep).length,
           { t with
             edges := t.edges ++ edgeRowsWithFreshIds t.nextEdgeId
               (recsIn.map EdgeRecIn.prep),
             nextEdgeId := t.nextEdgeId + (recsIn.map EdgeRecIn.prep).length }) := by
  have hgeom : (recsIn.map EdgeRecIn.prep).map (fun r => r.geometry) =
      recsIn.map (fun r => r.geometry) := by
    rw [List.map_map]
    rfl
  have hdistk : ((recsIn.map EdgeRecIn.prep).map EdgeRec.key).Nodup := by
    apply List.Nodup.of_map (fun (k : EdgeKey) => k.2.2.2.1)
    rw [List.map_map]
    show ((recsIn.map EdgeRecIn.prep).map (fun r => r.geometry)).Nodup
    rw [hgeom]
    exact hdistg
  have hnomatch2 : ∀ r ∈ recsIn.map EdgeRecIn.prep, ∀ e ∈ t.edges,
      e.matchesRec r = false := by
    intro r hr e he
    rcases List.mem_map.mp hr with ⟨r0, hr0, heq⟩
    cases hx : e.matchesRec r
    · rfl
    · exfalso
      have hg := matchesRec_geometry hx
      apply hnomatch r0 hr0 e he
      rw [hg, ← heq]
      rfl
  have hfilters : ∀ r ∈ recsIn.map EdgeRecIn.prep,
      (edgeScopedExisting t scope).filter (fun e => e.matchesRec r) = [] := by
    intro r hr
    apply List.filter_eq_nil_iff.mpr
    intro e he hbe
    rw [hnomatch2 r hr e (edgeScopedExisting_subset t scope e he)] at hbe
    cases hbe
  have hmerged : (if (edgeScopedExisting t scope).isEmpty
        then (recsIn.map EdgeRecIn.prep).map (fun r => (r, none))
        else edgeLeftJoin (recsIn.map EdgeRecIn.prep) (edgeScopedExisting t scope)) =
      (recsIn.map EdgeRecIn.prep).map (fun r => (r, none)) := by
    by_cases hie : (edgeScopedExisting t scope).isEmpty
    · rw [if_pos hie]
    · rw [if_neg hie, edgeLeftJoin_no_matches _ _ hfilters]
  have hdist2 : ((unmatchedOf ((recsIn.map EdgeRecIn.prep).map (fun r => (r, none)))).map
      EdgeRec.key).Nodup := by
    rw [unmatchedOf_all_none]
    exact hdistk
  have hfresh2 : ∀ r ∈ unmatchedOf ((recsIn.map EdgeRecIn.prep).map (fun r => (r, none))),
      ∀ e ∈ t.edges, e.matchesRec r = false := by
    rw [unmatchedOf_all_none]
    exact hnomatch2
  unfold EdgeService.create_many
  simp only [hmerged]
  rw [edgeBulkRun t ((recsIn.map EdgeRecIn.prep).map (fun r => (r, none)))
    hdist2 hfresh2, unmatchedOf_all_none]

theorem nodeSequentialCreate_ok :
    ∀ (recs : List NodeRec) (s : Store),
      (∀ r ∈ recs, ∀ e ∈ s.nodes, e.point ≠ r.point) →
      ((recs.map (fun r => r.point)).Nodup) →
      (∀ r ∈ recs, r.route = "") →
      nodeSequentialCreate s recs =
        .ok { s with
              nodes := s.nodes ++ rowsWithFreshIds s.nextNodeId recs,
              nextNodeId := s.nextNodeId + recs.length } := by
  intro recs
  induction recs with
  | nil =>
    intro s _ _ _
    simp [nodeSequentialCreate, rowsWithFreshIds]
  | cons r rest ih =>
    intro s hfresh hdist hroute
    have hgm : nodeGeomMatches s (CreateNodeDTO.ofRec r).point = [] := by
      apply List.filter_eq_nil_iff.mpr
      intro e he hbe
      exact hfresh r (List.mem_cons_self _ _) e he (by simpa [CreateNodeDTO.ofRec] using hbe)
    have hrow : nodeFreshRow s (CreateNodeDTO.ofRec r) = r.toRow s.nextNodeId := by
      unfold nodeFreshRow CreateNodeDTO.ofRec NodeRec.toRow
      rw [hroute r (List.mem_cons_self _ _)]
    have hpointnotin : r.point ∉ rest.map (fun q => q.point) := by
      simp only [List.map_cons, List.nodup_cons] at hdist
      exact hdist.1
    have hfresh2 : ∀ q ∈ rest, ∀ e ∈ (nodeInsert s (CreateNodeDTO.ofRec r)).nodes,
        e.point ≠ q.point := by
      intro q hq e he
      unfold nodeInsert at he
      simp only [List.mem_append, List.mem_singleton] at he
      rcases he with he | he
      · exact hfresh q (List.mem_cons_of_mem _ hq) e he
      · subst he
        show (nodeFreshRow s (CreateNodeDTO.ofRec r)).point ≠ q.point
        rw [hrow]
        intro hcontra
        have hc2 : q.point ∈ rest.map (fun q => q.point) :=
          List.mem_map_of_mem (fun q => q.point) hq
        have hc3 : r.point = q.point := hcontra
        rw [← hc3] at hc2
        exact hpointnotin hc2
    have hdist2 : (rest.map (fun q => q.point)).Nodup := by
      simp only [List.map_cons, List.nodup_cons] at hdist
      exact hdist.2
    have hroute2 : ∀ q ∈ rest, q.route = "" :=
      fun q hq => hroute q (List.mem_cons_of_mem _ hq)
    show nodeSequentialCreate s (r :: rest) = _
    unfold nodeSequentialCreate
    rw [node_create_inserts_of_no_match hgm]
    show nodeSequentialCreate (nodeInsert s (CreateNodeDTO.ofRec r)) rest = _
    rw [ih (nodeInsert s (CreateNodeDTO.ofRec r)) hfresh2 hdist2 hroute2]
    have harith : s.nextNodeId + 1 + rest.length = s.nextNodeId + (rest.length + 1) := by
      omega
    simp [nodeInsert, hrow, rowsWithFreshIds, List.append_assoc, harith]

theorem edgeSequentialCreate_ok :
    ∀ (recsIn : List EdgeRecIn) (t : Store),
      (∀ r ∈ recsIn, ∀ e ∈ t.edges, e.geometry ≠ r.geometry) →
      ((recsIn.map (fun r => r.geometry)).Nodup) →
      (∀ r ∈ recsIn, r.route.isSome) →
      edgeSequentialCreate t recsIn =
        .ok { t with
              edges := t.edges ++ edgeRowsWithFreshIds t.nextEdgeId
                (recsIn.map EdgeRecIn.prep),
              nextEdgeId := t.nextEdgeId + recsIn.length } := by
  intro recsIn
  induction recsIn with
  | nil =>
    intro t _ _ _
    simp [edgeSequentialCreate, edgeRowsWithFreshIds]
  | cons r rest ih =>
    intro t hfresh hdist hroute
    have hgm : edgeGeomMatches t (CreateEdgeDTO.ofRecIn r).geometry = [] := by
      apply List.filter_eq_nil_iff.mpr
      intro e he hbe
      exact hfresh r (List.mem_cons_self _ _) e he (by simpa [CreateEdgeDTO.ofRecIn] using hbe)
    have hrow : edgeFreshRow t (CreateEdgeDTO.ofRecIn r) = (EdgeRecIn.prep r).toRow t.nextEdgeId := by
      rcases Option.isSome_iff_exists.mp (hroute r (List.mem_cons_self _ _)) with ⟨x, hx⟩
      unfold edgeFreshRow CreateEdgeDTO.ofRecIn EdgeRecIn.prep EdgeRec.toRow
      rw [hx]
      rfl
    have hgeomnotin : r.geometry ∉ rest.map (fun q => q.geometry) := by
      simp only [List.map_cons, List.nodup_cons] at hdist
      exact hdist.1
    have hfresh2 : ∀ q ∈ rest, ∀ e ∈ (edgeInsert t (CreateEdgeDTO.ofRecIn r)).edges,
        e.geometry ≠ q.geometry := by
      intro q hq e he
      unfold edgeInsert at he
      simp only [List.mem_append, List.mem_singleton] at he
      rcases he with he | he
      · exact hfresh q (List.mem_cons_of_mem _ hq) e he
      · subst he
        show (edgeFreshRow t (CreateEdgeDTO.ofRecIn r)).geometry ≠ q.geometry
        rw [hrow]
        intro hcontra
        have hc2 : q.geometry ∈ rest.map (fun q => q.geometry) :=
          List.mem_map_of_mem (fun q => q.geometry) hq
        have hc3 : r.geometry = q.geometry := hcontra
        rw [← hc3] at hc2
        exact hgeomnotin hc2
    have hdist2 : (rest.map (fun q => q.geometry)).Nodup := by
      simp only [List.map_cons, List.nodup_cons] at hdist
      exact hdist.2
    have hroute2 : ∀ q ∈ rest, q.route.isSome :=
      fun q hq => hroute q (List.mem_cons_of_mem _ hq)
    show edgeSequentialCreate t (r :: rest) = _
    unfold edgeSequentialCreate
    rw [edge_create_inserts_of_no_match hgm]
    show edgeSequentialCreate (edgeInsert t (CreateEdgeDTO.ofRecIn r)) rest = _
    rw [ih (edgeInsert t (CreateEdgeDTO.ofRecIn r)) hfresh2 hdist2 hroute2]
    have harith : t.nextEdgeId + 1 + rest.length = t.nextEdgeId + (rest.length + 1) := by
      omega
    simp [edgeInsert, hrow, edgeRowsWithFreshIds, List.append_assoc, harith]

/-- C4 (amended): for a batch of records that conflict neither with each other
nor with persisted rows *under the single-create path's geometry-only
matching* (pairwise-distinct geometries, absent from the store), and whose
routes survive both paths identically (empty node routes, non-null edge
routes), the bulk path persists exactly the rows the sequential single-create
path persists — the final stores coincide. -/
theorem claim_c4_bulk_equals_sequential
    (nscope escope : Option (Geom → Bool)) (s t : Store)
    (nrecs : List NodeRec) (erecsIn : List EdgeRecIn)
    (hnfresh : ∀ r ∈ nrecs, ∀ e ∈ s.nodes, e.point ≠ r.point)
    (hndist : (nrecs.map (fun r => r.point)).Nodup)
    (hnroute : ∀ r ∈ nrecs, r.route = "")
    (hegfresh : ∀ r ∈ erecsIn, ∀ e ∈ t.edges, e.geometry ≠ r.geometry)
    (hegdist : (erecsIn.map (fun r => r.geometry)).Nodup)
    (heroute : ∀ r ∈ erecsIn, r.route.isSome) :
    (∃ frame s2, (NodeService.create_many nscope s nrecs).result =
        .ok (frame, nrecs.length, s2) ∧
      nodeSequentialCreate s nrecs = .ok s2) ∧
    (∃ frame t2, (EdgeService.create_many escope t erecsIn).result =
        .ok (frame, erecsIn.length, t2) ∧
      edgeSequentialCreate t erecsIn = .ok t2) := by
  constructor
  · refine ⟨assignFresh s.nextNodeId (nrecs.map (fun r => (r, none))).enum,
      { s with
        nodes := s.nodes ++ rowsWithFreshIds s.nextNodeId nrecs,
        nextNodeId := s.nextNodeId + nrecs.length }, ?_, ?_⟩
    · exact nodeCreateMany_all_fresh_run nscope s nrecs hnfresh hndist
    · exact nodeSequentialCreate_ok nrecs s hnfresh hndist hnroute
  · refine ⟨assignFresh t.nextEdgeId
        ((erecsIn.map EdgeRecIn.prep).map (fun r => (r, none))).enum,
      { t with
        edges := t.edges ++ edgeRowsWithFreshIds t.nextEdgeId
          (erecsIn.map EdgeRecIn.prep),
        nextEdgeId := t.nextEdgeId + erecsIn.length }, ?_, ?_⟩
    · have h := edgeCreateMany_all_fresh_run escope t erecsIn hegfresh hegdist
      rw [List.length_map] at h
      exact h
    · exact edgeSequentialCreate_ok erecsIn t hegfresh hegdist heroute

/-- C4 counterexample: the claim as stated — bulk and sequential produce the
same rows for any non-conflicting batch — fails for a single node record with
a non-empty route: the batch does not conflict with anything, yet the bulk
path persists route "rr" while the single-create path persists the column
default "". -/
theorem claim_c4_counterexample :
    nodeSequentialCreate emptyStore [c4rec] = .ok c4seqStore ∧
    (NodeService.create_many none emptyStore [c4rec]).result =
      .ok ([(0, (c4rec, 1))], 1, c4bulkStore) ∧
    c4seqStore.nodes.map (fun r => r.route) ≠ c4bulkStore.nodes.map (fun r => r.route) :=
  ⟨rfl, rfl, by decide⟩

theorem claim_c4_bulk_equals_sequential_witness :
    (∃ frame s2, (NodeService.create_many none emptyStore [w2recA, w2recB]).result =
        .ok (frame, ([w2recA, w2recB] : List NodeRec).length, s2) ∧
      nodeSequentialCreate emptyStore [w2recA, w2recB] = .ok s2) ∧
    (∃ frame t2, (EdgeService.create_many none emptyStore [w2erecA, w2erecB]).result =
        .ok (frame, ([w2erecA, w2erecB] : List EdgeRecIn).length, t2) ∧
      edgeSequentialCreate emptyStore [w2erecA, w2erecB] = .ok t2) :=
  claim_c4_bulk_equals_sequential none none emptyStore emptyStore
    [w2recA, w2recB] [w2erecA, w2erecB]
    (by decide) (by decide) (by decide) (by decide) (by decide) (by decide)

/-- C6 counterexample: the claim says a pre-existing row is reused only when
all discriminators match.  False: `select_one_by_geometry` carries no
discriminator filter, so the single-create path reuses a row of a different
type and route (and, for edges, different endpoints) whenever the geometry is
equal. -/
theorem claim_c6_counterexample :
    (NodeService.create c6store c6ndto = .ok (c6row, c6store) ∧
      c6row.type ≠ c6ndto.type ∧ c6row.route ≠ "") ∧
    (EdgeService.create c6store c6edto = .ok (c6erow, c6store) ∧
      c6erow.type ≠ c6edto.type ∧ c6erow.u ≠ c6edto.u) :=
  ⟨⟨rfl, by decide, by decide⟩, ⟨rfl, by decide, by decide⟩⟩

/-- C6 (amended): the single-entity existing-row check queries the store with
an exact geometry-equality predicate and NO discriminator scoping: whenever a
unique row with equal geometry exists, it is reused regardless of its type,
route or (for edges) endpoints.  The discriminator-scoped lookup exists only
in `select_one_by_unique_critique`, used by the bulk conflict resolvers. -/
theorem claim_c6_geometry_only_matching
    (s : Store) (hnwf : s.NodesWF) (hewf : s.EdgesWF)
    (ndto : CreateNodeDTO) (edto : CreateEdgeDTO) (rn : NodeRow) (re : EdgeRow)
    (hrn : rn ∈ s.nodes) (hpn : rn.point = ndto.point)
    (hun : (nodeGeomMatches s ndto.point).length ≤ 1)
    (hre : re ∈ s.edges) (hpe : re.geometry = edto.geometry)
    (hue : (edgeGeomMatches s edto.geometry).length ≤ 1) :
    NodeService.create s ndto = .ok (rn, s) ∧
    EdgeService.create s edto = .ok (re, s) :=
  ⟨node_create_reuses_geom_match hnwf hrn hpn hun,
   edge_create_reuses_geom_match hewf hre hpe hue⟩

theorem claim_c6_geometry_only_matching_witness :
    c6row.type ≠ c6ndto.type ∧ c6erow.type ≠ c6edto.type ∧
    (NodeService.create c6store c6ndto = .ok (c6row, c6store) ∧
     EdgeService.create c6store c6edto = .ok (c6erow, c6store)) :=
  ⟨by decide, by decide,
   claim_c6_geometry_only_matching c6store (by decide) (by decide)
     c6ndto c6edto c6row c6erow (by decide) rfl (by decide) (by decide) rfl
     (by decide)⟩

end GraphApi
